import Mathlib

/-
  Verification development for the pyRandomWalk repository
  (src/random_walk.py, class random_walk).

  Modelling conventions:
  * Coordinates, angles and step lengths are real numbers (the idealized
    semantics of the Python floats).
  * numpy's random sampling is modelled by oracles `oxy oxz : Nat → ℝ`
    giving the stream of sampled xy-plane and xz-plane angles.  A call of
    `calc_next_steps` for `n` walks consumes the draws at indices
    `cur, cur+1, …, cur+n-1` and the cursor advances by `n`.  The fact that
    `np.random.choice` / `np.random.uniform` only produce values in the
    support of the requested distribution is expressed by the predicate
    `xy_support` used as a hypothesis on the oracle where a theorem needs it.
  * Exceptions (`ValueError` for invalid configuration, the `AssertionError`
    of the constraint loop) are modelled with `Except Err`.
  * The Python `while any(constraint_violated)` loop is given explicit fuel
    `constraint_counter + 1`.  The per-walk retry counters make the real loop
    stop (with the `constraintExhausted` error) after at most
    `constraint_counter` iterations, so this fuel is never exhausted; the
    `fuelOut` marker only keeps the recursion structural.
-/

set_option maxHeartbeats 1600000

open scoped Classical

namespace RW

/-- Errors raised by the generator: `invalidConfiguration` corresponds to the
two `ValueError`s (invalid `dimensions`, invalid `wall_mode`),
`constraintExhausted` to the `AssertionError` of the rejection loop,
`fuelOut` is the (unreachable) fuel exhaustion marker of the embedding. -/
inductive Err where
  | invalidConfiguration : Err
  | constraintExhausted : Err
  | fuelOut : Err
deriving DecidableEq

/-- Start coordinates: in the Python code `start_x` (etc.) is either a scalar
broadcast to all walks or an explicit per-walk list. -/
inductive StartPos where
  | scalar (v : ℝ)
  | perWalk (vs : List ℝ)

/-- Broadcasting of a start position over `n` walks, as done by
`self.x[0] = self.start_x` on a row of width `n`. -/
def StartPos.toRow : StartPos → Nat → List ℝ
  | .scalar v, n => List.replicate n v
  | .perWalk vs, _ => vs

/-- The constructor parameters of the `random_walk` class. -/
structure Config where
  step_number : Nat
  number_of_walks : Nat
  start_x : StartPos
  start_y : StartPos
  start_z : StartPos
  dimensions : Int
  step_length : ℝ
  angles_xy : Option (List ℝ)
  angles_xz : Option (List ℝ)
  angles_xy_p : Option (List ℝ)
  angles_xz_p : Option (List ℝ)
  x_limits : Option (ℝ × ℝ)
  y_limits : Option (ℝ × ℝ)
  z_limits : Option (ℝ × ℝ)
  constraint_counter : Nat
  wall_mode : String

/-- One row of coordinates (one value per walk) for each of the three axes. -/
structure Rows where
  x : List ℝ
  y : List ℝ
  z : List ℝ

/-- The displacement triple returned by `calc_next_steps`. -/
structure Steps3 where
  sx : List ℝ
  sy : List ℝ
  sz : List ℝ

/-- The three coordinate matrices `self.x`, `self.y`, `self.z`
(rows indexed by step, columns by walk). -/
structure Traj where
  x : List (List ℝ)
  y : List (List ℝ)
  z : List (List ℝ)

/-- Sampling of the xy-plane angles in `calc_next_steps`: for `dimensions == 1`
`np.random.choice([0, np.pi], …)`, for dimensions 2 and 3 either
`np.random.uniform(0, 2π, …)` (`angles_xy is None`) or
`np.random.choice(angles_xy, …)`; otherwise the `ValueError` is raised.
Both sampling forms are draws from the oracle (they differ only in their
support, see `xy_support`). -/
noncomputable def sample_angles_xy (cfg : Config) (n : Nat) (oxy : Nat → ℝ)
    (cur : Nat) : Except Err (List ℝ) :=
  if cfg.dimensions = 1 then
    .ok ((List.range n).map fun i => oxy (cur + i))
  else if cfg.dimensions = 2 ∨ cfg.dimensions = 3 then
    match cfg.angles_xy with
    | none => .ok ((List.range n).map fun i => oxy (cur + i))
    | some _ => .ok ((List.range n).map fun i => oxy (cur + i))
  else
    .error .invalidConfiguration

/-- Sampling of the xz-plane angles: `np.full(n, np.pi/2)` for dimensions 1
and 2, an oracle draw (uniform or `np.random.choice(angles_xz, …)`) for
dimension 3.  Only evaluated after `sample_angles_xy` succeeded, so the
fall-through branch is exactly the `dimensions == 3` case. -/
noncomputable def sample_angles_xz (cfg : Config) (n : Nat) (oxz : Nat → ℝ)
    (cur : Nat) : List ℝ :=
  if cfg.dimensions = 1 ∨ cfg.dimensions = 2 then
    List.replicate n (Real.pi / 2)
  else
    match cfg.angles_xz with
    | none => (List.range n).map fun i => oxz (cur + i)
    | some _ => (List.range n).map fun i => oxz (cur + i)

/-- The support of the xy-angle distribution sampled by `calc_next_steps`:
`{0, π}` in dimension 1, the full circle for `angles_xy is None`, and the
elements of `angles_xy` otherwise. -/
def xy_support (cfg : Config) (θ : ℝ) : Prop :=
  if cfg.dimensions = 1 then θ = 0 ∨ θ = Real.pi
  else
    match cfg.angles_xy with
    | none => 0 ≤ θ ∧ θ < 2 * Real.pi
    | some l => θ ∈ l

/-- `calc_next_steps(step_number)` of the Python class: sample the two angle
vectors and convert polar to cartesian displacements,
`dx = cos(θ)·sin(φ)·L`, `dy = sin(θ)·sin(φ)·L`, `dz = cos(φ)·L`. -/
noncomputable def calc_next_steps (cfg : Config) (n : Nat) (oxy oxz : Nat → ℝ)
    (cur : Nat) : Except Err Steps3 :=
  match sample_angles_xy cfg n oxy cur with
  | .error e => .error e
  | .ok axy =>
    let axz := sample_angles_xz cfg n oxz cur
    .ok ⟨List.zipWith (fun θ φ => Real.cos θ * Real.sin φ * cfg.step_length) axy axz,
         List.zipWith (fun θ φ => Real.sin θ * Real.sin φ * cfg.step_length) axy axz,
         axz.map fun φ => Real.cos φ * cfg.step_length⟩

/-- `check_constraints` of the Python class: start from an all-`False` vector
of length `len(curr_x)` and accumulate, for each configured axis limit, the
violation `(c > max) | (c < min)` with logical or. -/
noncomputable def check_constraints (cfg : Config) (cx cy cz : List ℝ) :
    List Bool :=
  let v0 : List Bool := List.replicate cx.length false
  let v1 := match cfg.x_limits with
    | none => v0
    | some lim => List.zipWith (fun b c => b || (decide (c > lim.2) || decide (c < lim.1))) v0 cx
  let v2 := match cfg.y_limits with
    | none => v1
    | some lim => List.zipWith (fun b c => b || (decide (c > lim.2) || decide (c < lim.1))) v1 cy
  match cfg.z_limits with
  | none => v2
  | some lim => List.zipWith (fun b c => b || (decide (c > lim.2) || decide (c < lim.1))) v2 cz

/-- The masked numpy update
`row[step+1, violated] = row[step, violated] + resampled_steps`:
positions flagged `true` get previous-row value plus the next resampled
displacement, positions flagged `false` keep their current value. -/
def masked_update : List Bool → List ℝ → List ℝ → List ℝ → List ℝ
  | true :: vs, p :: ps, _ :: cs, s :: ss => (p + s) :: masked_update vs ps cs ss
  | true :: vs, _ :: ps, c :: cs, [] => c :: masked_update vs ps cs []
  | false :: vs, _ :: ps, c :: cs, ss => c :: masked_update vs ps cs ss
  | _, _, _, _ => []

/-- The `while any(constraint_violated)` rejection loop of
`generate_walk_coordinates` under `wall_mode == 'exclude'`: resample the
violating walks, write their new coordinates with a masked update, re-check
the constraints, bump the per-walk retry counters of the walks still
violating, and raise (`constraintExhausted`) as soon as a still-violating
walk has reached `constraint_counter` retries. -/
noncomputable def rejection_loop (cfg : Config) (oxy oxz : Nat → ℝ)
    (prev : Rows) :
    Nat → List Bool → Rows → List Nat → Nat → Except Err (Rows × Nat)
  | fuel, violated, curRows, counter, cur =>
    if violated.any id then
      match fuel with
      | 0 => .error .fuelOut
      | fuel' + 1 =>
        match calc_next_steps cfg (violated.count true) oxy oxz cur with
        | .error e => .error e
        | .ok st =>
          let nx := masked_update violated prev.x curRows.x st.sx
          let ny := masked_update violated prev.y curRows.y st.sy
          let nz := masked_update violated prev.z curRows.z st.sz
          let violated' := check_constraints cfg nx ny nz
          let counter' := List.zipWith (fun b c => if b then c + 1 else c) violated' counter
          if (List.zipWith (fun b c => b && decide (cfg.constraint_counter ≤ c)) violated' counter').any id then
            .error .constraintExhausted
          else
            rejection_loop cfg oxy oxz prev fuel' violated' ⟨nx, ny, nz⟩ counter'
              (cur + violated.count true)
    else
      .ok (curRows, cur)

/-- The body of one iteration of `for curr_step in range(self.step_number)`:
compute the candidate next row, check the constraints, and dispatch on
`wall_mode` ('exclude' runs the rejection loop with fresh zero counters,
'reflect' is a pass, anything else raises the `ValueError`). -/
noncomputable def do_step (cfg : Config) (oxy oxz : Nat → ℝ) (prev : Rows)
    (cur : Nat) : Except Err (Rows × Nat) :=
  match calc_next_steps cfg cfg.number_of_walks oxy oxz cur with
  | .error e => .error e
  | .ok st =>
    let cur1 := cur + cfg.number_of_walks
    let next : Rows := ⟨List.zipWith (· + ·) prev.x st.sx,
                        List.zipWith (· + ·) prev.y st.sy,
                        List.zipWith (· + ·) prev.z st.sz⟩
    let violated := check_constraints cfg next.x next.y next.z
    if cfg.wall_mode = "exclude" then
      rejection_loop cfg oxy oxz prev (cfg.constraint_counter + 1) violated next
        (List.replicate cfg.number_of_walks 0) cur1
    else if cfg.wall_mode = "reflect" then
      .ok (next, cur1)
    else
      .error .invalidConfiguration

/-- The per-step loop of `generate_walk_coordinates`, producing the list of
rows after the start row (one row per step). -/
noncomputable def gen_loop (cfg : Config) (oxy oxz : Nat → ℝ) :
    Nat → Rows → Nat → Except Err (List Rows)
  | 0, _, _ => .ok []
  | k + 1, prev, cur =>
    match do_step cfg oxy oxz prev cur with
    | .error e => .error e
    | .ok (r, cur') =>
      match gen_loop cfg oxy oxz k r cur' with
      | .error e => .error e
      | .ok rest => .ok (r :: rest)

/-- Row 0 of the three coordinate arrays,
`self.x[0] = self.start_x` (and y, z). -/
noncomputable def start_rows (cfg : Config) : Rows :=
  ⟨cfg.start_x.toRow cfg.number_of_walks,
   cfg.start_y.toRow cfg.number_of_walks,
   cfg.start_z.toRow cfg.number_of_walks⟩

/-- `generate_walk_coordinates` of the Python class: start row followed by one
generated row per step, assembled into the matrices `x`, `y`, `z`. -/
noncomputable def generate_walk_coordinates (cfg : Config) (oxy oxz : Nat → ℝ) :
    Except Err Traj :=
  let r0 := start_rows cfg
  match gen_loop cfg oxy oxz cfg.step_number r0 0 with
  | .error e => .error e
  | .ok rows =>
    .ok ⟨(r0 :: rows).map Rows.x, (r0 :: rows).map Rows.y,
         (r0 :: rows).map Rows.z⟩

/-- Elementwise difference between the first and the last row of a coordinate
matrix, `m[0, :] - m[-1, :]`. -/
def first_last_diff (m : List (List ℝ)) : List ℝ :=
  List.zipWith (fun a b => a - b) (m.headD []) (m.getLastD [])

/-- `self.end2end_real`: the per-walk value
`sqrt((x[0]-x[-1])**2 + (y[0]-y[-1])**2 + (z[0]-z[-1])**2)`. -/
noncomputable def end2end_real (t : Traj) : List ℝ :=
  (List.zipWith (· + ·)
    (List.zipWith (· + ·)
      ((first_last_diff t.x).map fun a => a ^ 2)
      ((first_last_diff t.y).map fun a => a ^ 2))
    ((first_last_diff t.z).map fun a => a ^ 2)).map Real.sqrt

/-- `np.mean` of a vector: sum divided by length. -/
noncomputable def mean (l : List ℝ) : ℝ := l.sum / l.length

/-- `self.end2end`: the scalar
`sqrt(mean((x[0]-x[-1])**2) + mean((y[0]-y[-1])**2) + mean((z[0]-z[-1])**2))`. -/
noncomputable def end2end (t : Traj) : ℝ :=
  Real.sqrt (mean ((first_last_diff t.x).map fun a => a ^ 2) +
             mean ((first_last_diff t.y).map fun a => a ^ 2) +
             mean ((first_last_diff t.z).map fun a => a ^ 2))

/-- Normalization of an angle probability vector done in `__init__`:
`p / np.sum(p)` when a vector is given, `None` kept as `None`. -/
noncomputable def normalize_p : Option (List ℝ) → Option (List ℝ)
  | none => none
  | some l => some (l.map fun v => v / l.sum)

/-- The attributes of a fully constructed `random_walk` object that the
claims talk about. -/
structure RandomWalkResult where
  angles_xy_p : Option (List ℝ)
  angles_xz_p : Option (List ℝ)
  traj : Traj
  end2end_real : List ℝ
  end2end : ℝ

/-- `random_walk.__init__`: store the normalized probability vectors, run
`generate_walk_coordinates`, then compute the two end-to-end summaries.  Any
exception aborts the construction, so no partial object is produced. -/
noncomputable def random_walk_init (cfg : Config) (oxy oxz : Nat → ℝ) :
    Except Err RandomWalkResult :=
  let pxy := normalize_p cfg.angles_xy_p
  let pxz := normalize_p cfg.angles_xz_p
  let cfg' := { cfg with angles_xy_p := pxy, angles_xz_p := pxz }
  match generate_walk_coordinates cfg' oxy oxz with
  | .error e => .error e
  | .ok t => .ok ⟨pxy, pxz, t, end2end_real t, end2end t⟩

/-- Coordinate access `m[s, w]` on a coordinate matrix (out-of-range reads
default to 0; the generation theorems establish the ranges). -/
noncomputable def coord (m : List (List ℝ)) (s w : Nat) : ℝ :=
  (m.getD s []).getD w 0

/-- Euclidean distance of two points of ℝ³, used to state the spec's reading
of `end2end_real` independently of the code formula. -/
noncomputable def euclidean_dist3 (p q : ℝ × ℝ × ℝ) : ℝ :=
  Real.sqrt ((p.1 - q.1) ^ 2 + (p.2.1 - q.2.1) ^ 2 + (p.2.2 - q.2.2) ^ 2)

/-- Length bookkeeping for the three rows of one step. -/
def RowsLen (r : Rows) (n : Nat) : Prop :=
  r.x.length = n ∧ r.y.length = n ∧ r.z.length = n

/-- The xz-plane angle used for the draw at stream index `j`: the constant
`π/2` in dimensions 1 and 2, the oracle draw in dimension 3. -/
noncomputable def xz_angle (cfg : Config) (oxz : Nat → ℝ) (j : Nat) : ℝ :=
  if cfg.dimensions = 1 ∨ cfg.dimensions = 2 then Real.pi / 2 else oxz j

/-- Violation test of a single coordinate against one optional axis limit. -/
noncomputable def axis_violation (lim : Option (ℝ × ℝ)) (c : ℝ) : Bool :=
  match lim with
  | none => false
  | some l => decide (c > l.2) || decide (c < l.1)

section ListHelpers

variable {α β γ : Type}

lemma getD_in_bounds {l : List α} {i : Nat} (h : i < l.length) (d d' : α) :
    l.getD i d = l.getD i d' := by
  rw [List.getD_eq_getElem l d h, List.getD_eq_getElem l d' h]

lemma getD_zipWith {f : α → β → γ} {a : List α} {b : List β} {i : Nat}
    (ha : i < a.length) (hb : i < b.length) (d : γ) (da : α) (db : β) :
    (List.zipWith f a b).getD i d = f (a.getD i da) (b.getD i db) := by
  have hl : i < (List.zipWith f a b).length := by
    rw [List.length_zipWith]; omega
  rw [List.getD_eq_getElem _ _ hl, List.getD_eq_getElem _ _ ha,
    List.getD_eq_getElem _ _ hb, List.getElem_zipWith]

lemma getD_map {f : α → β} {l : List α} {i : Nat} (h : i < l.length)
    (d : β) (d' : α) : (l.map f).getD i d = f (l.getD i d') := by
  have hl : i < (l.map f).length := by simpa using h
  rw [List.getD_eq_getElem _ _ hl, List.getD_eq_getElem _ _ h, List.getElem_map]

lemma getD_range {n i : Nat} (h : i < n) (d : Nat) :
    (List.range n).getD i d = i := by
  have hl : i < (List.range n).length := by simpa using h
  rw [List.getD_eq_getElem _ _ hl, List.getElem_range]

lemma getD_replicate {c : α} {n i : Nat} (h : i < n) (d : α) :
    (List.replicate n c).getD i d = c := by
  have hl : i < (List.replicate n c).length := by simpa using h
  rw [List.getD_eq_getElem _ _ hl, List.getElem_replicate]

lemma mem_zipWith {f : α → β → γ} :
    ∀ {a : List α} {b : List β} {c : γ}, c ∈ List.zipWith f a b →
      ∃ x ∈ a, ∃ y ∈ b, c = f x y
  | x :: xs, y :: ys, c, h => by
    rcases List.mem_cons.1 h with h | h
    · exact ⟨x, List.mem_cons_self _ _, y, List.mem_cons_self _ _, h⟩
    · rcases mem_zipWith h with ⟨x', hx', y', hy', rfl⟩
      exact ⟨x', List.mem_cons_of_mem _ hx', y', List.mem_cons_of_mem _ hy', rfl⟩

lemma zipWith_add_zero {p s : List ℝ} (hz : ∀ a ∈ s, a = 0)
    (hl : p.length ≤ s.length) : List.zipWith (· + ·) p s = p := by
  induction p generalizing s with
  | nil => simp
  | cons a p ih =>
    cases s with
    | nil => simp at hl
    | cons b s =>
      have hb : b = 0 := hz b (List.mem_cons_self _ _)
      simp only [List.zipWith_cons_cons, hb, add_zero, List.cons.injEq, true_and]
      exact ih (fun a ha => hz a (List.mem_cons_of_mem _ ha)) (by simpa using hl)

end ListHelpers

section CalcNextSteps

/-- Closed form of the xz-angle sampling. -/
lemma sample_angles_xz_eq (cfg : Config) (n : Nat) (oxz : Nat → ℝ) (cur : Nat) :
    sample_angles_xz cfg n oxz cur =
      (List.range n).map fun i => xz_angle cfg oxz (cur + i) := by
  unfold sample_angles_xz xz_angle
  by_cases h : cfg.dimensions = 1 ∨ cfg.dimensions = 2
  · simp only [h, if_true]
    have : ((List.range n).map fun _ : Nat => Real.pi / 2) =
        List.replicate (List.range n).length (Real.pi / 2) := List.map_const' _ _
    rw [this, List.length_range]
  · simp only [h, if_false]
    cases cfg.angles_xz <;> rfl

/-- Closed form of the xy-angle sampling for valid dimensions. -/
lemma sample_angles_xy_eq (cfg : Config) (n : Nat) (oxy : Nat → ℝ) (cur : Nat)
    (hd : cfg.dimensions = 1 ∨ cfg.dimensions = 2 ∨ cfg.dimensions = 3) :
    sample_angles_xy cfg n oxy cur =
      .ok ((List.range n).map fun i => oxy (cur + i)) := by
  unfold sample_angles_xy
  rcases hd with h | h | h
  · simp [h]
  all_goals
    rw [if_neg (by rw [h]; decide), if_pos (by omega)]
    cases cfg.angles_xy <;> rfl

/-- Error form of the xy-angle sampling for invalid dimensions. -/
lemma sample_angles_xy_err (cfg : Config) (n : Nat) (oxy : Nat → ℝ) (cur : Nat)
    (hd : ¬(cfg.dimensions = 1 ∨ cfg.dimensions = 2 ∨ cfg.dimensions = 3)) :
    sample_angles_xy cfg n oxy cur = .error .invalidConfiguration := by
  unfold sample_angles_xy
  rw [if_neg (by tauto), if_neg (by tauto)]

/-- Closed form of `calc_next_steps` for valid dimensions: each walk `i` gets
the displacement triple obtained from the angles at stream index `cur + i`. -/
lemma calc_next_steps_ok (cfg : Config) (n : Nat) (oxy oxz : Nat → ℝ) (cur : Nat)
    (hd : cfg.dimensions = 1 ∨ cfg.dimensions = 2 ∨ cfg.dimensions = 3) :
    calc_next_steps cfg n oxy oxz cur =
      .ok ⟨(List.range n).map fun i =>
             Real.cos (oxy (cur + i)) * Real.sin (xz_angle cfg oxz (cur + i)) * cfg.step_length,
           (List.range n).map fun i =>
             Real.sin (oxy (cur + i)) * Real.sin (xz_angle cfg oxz (cur + i)) * cfg.step_length,
           (List.range n).map fun i =>
             Real.cos (xz_angle cfg oxz (cur + i)) * cfg.step_length⟩ := by
  unfold calc_next_steps
  rw [sample_angles_xy_eq cfg n oxy cur hd, sample_angles_xz_eq cfg n oxz cur]
  simp only [List.zipWith_map, List.zipWith_same, List.map_map]
  rfl

/-- `calc_next_steps` raises the dimensions `ValueError` exactly when
`dimensions` is invalid. -/
lemma calc_next_steps_err (cfg : Config) (n : Nat) (oxy oxz : Nat → ℝ) (cur : Nat)
    (hd : ¬(cfg.dimensions = 1 ∨ cfg.dimensions = 2 ∨ cfg.dimensions = 3)) :
    calc_next_steps cfg n oxy oxz cur = .error .invalidConfiguration := by
  unfold calc_next_steps
  rw [sample_angles_xy_err cfg n oxy cur hd]

lemma calc_next_steps_len {cfg : Config} {n : Nat} {oxy oxz : Nat → ℝ} {cur : Nat}
    {st : Steps3} (h : calc_next_steps cfg n oxy oxz cur = .ok st) :
    st.sx.length = n ∧ st.sy.length = n ∧ st.sz.length = n := by
  by_cases hd : cfg.dimensions = 1 ∨ cfg.dimensions = 2 ∨ cfg.dimensions = 3
  · rw [calc_next_steps_ok cfg n oxy oxz cur hd] at h
    cases h
    refine ⟨?_, ?_, ?_⟩ <;> simp
  · rw [calc_next_steps_err cfg n oxy oxz cur hd] at h
    cases h

lemma calc_next_steps_dims {cfg : Config} {n : Nat} {oxy oxz : Nat → ℝ} {cur : Nat}
    {st : Steps3} (h : calc_next_steps cfg n oxy oxz cur = .ok st) :
    cfg.dimensions = 1 ∨ cfg.dimensions = 2 ∨ cfg.dimensions = 3 := by
  by_contra hd
  rw [calc_next_steps_err cfg n oxy oxz cur hd] at h
  cases h

end CalcNextSteps

section CheckConstraints

/-- Accumulation of one axis' violations into the running boolean vector,
the shape of each `constraint_violated += …` statement. -/
noncomputable def acc_axis (lim : Option (ℝ × ℝ)) (v : List Bool) (c : List ℝ) :
    List Bool :=
  match lim with
  | none => v
  | some lim => List.zipWith (fun b c => b || (decide (c > lim.2) || decide (c < lim.1))) v c

lemma check_constraints_eq (cfg : Config) (cx cy cz : List ℝ) :
    check_constraints cfg cx cy cz =
      acc_axis cfg.z_limits
        (acc_axis cfg.y_limits
          (acc_axis cfg.x_limits (List.replicate cx.length false) cx) cy) cz := rfl

lemma acc_axis_len {lim : Option (ℝ × ℝ)} {v : List Bool} {c : List ℝ}
    (h : c.length = v.length) : (acc_axis lim v c).length = v.length := by
  cases lim <;> simp [acc_axis, h]

lemma acc_axis_getD {lim : Option (ℝ × ℝ)} {v : List Bool} {c : List ℝ}
    {i : Nat} (hi : i < v.length) (hc : c.length = v.length) :
    (acc_axis lim v c).getD i false =
      (v.getD i false || axis_violation lim (c.getD i 0)) := by
  cases lim with
  | none => simp [acc_axis, axis_violation]
  | some l =>
    unfold acc_axis axis_violation
    rw [getD_zipWith hi (by omega) false false 0]

lemma check_constraints_len {cfg : Config} {cx cy cz : List ℝ}
    (hy : cy.length = cx.length) (hz : cz.length = cx.length) :
    (check_constraints cfg cx cy cz).length = cx.length := by
  rw [check_constraints_eq]
  rw [acc_axis_len, acc_axis_len, acc_axis_len] <;>
    simp [acc_axis_len, List.length_replicate, hy, hz]

lemma check_constraints_getD {cfg : Config} {cx cy cz : List ℝ} {w : Nat}
    (hw : w < cx.length) (hy : cy.length = cx.length) (hz : cz.length = cx.length) :
    (check_constraints cfg cx cy cz).getD w false =
      ((axis_violation cfg.x_limits (cx.getD w 0) ||
        axis_violation cfg.y_limits (cy.getD w 0)) ||
        axis_violation cfg.z_limits (cz.getD w 0)) := by
  have l0 : (List.replicate cx.length false).length = cx.length := by simp
  have l1 : (acc_axis cfg.x_limits (List.replicate cx.length false) cx).length =
      cx.length := by rw [acc_axis_len (by simp), l0]
  have l2 : (acc_axis cfg.y_limits
      (acc_axis cfg.x_limits (List.replicate cx.length false) cx) cy).length =
      cx.length := by rw [acc_axis_len (by rw [l1, hy]), l1]
  rw [check_constraints_eq]
  rw [acc_axis_getD (by omega) (by rw [l2, hz]),
    acc_axis_getD (by omega) (by rw [l1, hy]),
    acc_axis_getD (by simpa using hw) (by simp),
    getD_replicate hw]
  simp [Bool.or_assoc]

/-- A coordinate whose axis violation is `false` lies inside the configured
limits (inclusively). -/
lemma axis_violation_false {lim : Option (ℝ × ℝ)} {c : ℝ}
    (h : axis_violation lim c = false) :
    ∀ lo hi, lim = some (lo, hi) → lo ≤ c ∧ c ≤ hi := by
  rintro lo hi rfl
  unfold axis_violation at h
  simp only [Bool.or_eq_false_iff, decide_eq_false_iff_not, not_lt] at h
  exact ⟨h.2, h.1⟩

/-- With no limits configured, `check_constraints` reports no violation. -/
lemma check_constraints_no_limits {cfg : Config} (cx cy cz : List ℝ)
    (hx : cfg.x_limits = none) (hy : cfg.y_limits = none) (hz : cfg.z_limits = none) :
    check_constraints cfg cx cy cz = List.replicate cx.length false := by
  rw [check_constraints_eq, hx, hy, hz]
  rfl

end CheckConstraints

section MaskedUpdate

lemma masked_update_len :
    ∀ (v : List Bool) (p c s : List ℝ), p.length = v.length → c.length = v.length →
      (masked_update v p c s).length = v.length
  | [], p, c, s, hp, hc => by
    cases p <;> cases c <;> simp_all [masked_update]
  | b :: vs, [], c, s, hp, hc => by simp at hp
  | b :: vs, p :: ps, [], s, hp, hc => by simp at hc
  | true :: vs, p :: ps, c :: cs, [], hp, hc => by
    simp only [masked_update, List.length_cons]
    rw [masked_update_len vs ps cs [] (by simpa using hp) (by simpa using hc)]
  | true :: vs, p :: ps, c :: cs, s :: ss, hp, hc => by
    simp only [masked_update, List.length_cons]
    rw [masked_update_len vs ps cs ss (by simpa using hp) (by simpa using hc)]
  | false :: vs, p :: ps, c :: cs, s, hp, hc => by
    simp only [masked_update, List.length_cons]
    rw [masked_update_len vs ps cs s (by simpa using hp) (by simpa using hc)]

/-- Frame property of the masked numpy write: positions that are not flagged
keep their current value. -/
lemma masked_update_getD_false :
    ∀ (v : List Bool) (p c s : List ℝ) (w : Nat), p.length = v.length →
      c.length = v.length → v.getD w true = false →
      (masked_update v p c s).getD w 0 = c.getD w 0
  | [], p, c, s, w, hp, hc, hv => by simp [List.getD] at hv
  | b :: vs, [], c, s, w, hp, hc, hv => by simp at hp
  | b :: vs, p :: ps, [], s, w, hp, hc, hv => by simp at hc
  | true :: vs, p :: ps, c :: cs, [], 0, hp, hc, hv => by simp at hv
  | true :: vs, p :: ps, c :: cs, s :: ss, 0, hp, hc, hv => by simp at hv
  | false :: vs, p :: ps, c :: cs, s, 0, hp, hc, hv => by simp [masked_update]
  | true :: vs, p :: ps, c :: cs, [], w + 1, hp, hc, hv => by
    simp only [masked_update, List.getD_cons_succ]
    exact masked_update_getD_false vs ps cs [] w (by simpa using hp)
      (by simpa using hc) (by simpa using hv)
  | true :: vs, p :: ps, c :: cs, s :: ss, w + 1, hp, hc, hv => by
    simp only [masked_update, List.getD_cons_succ]
    exact masked_update_getD_false vs ps cs ss w (by simpa using hp)
      (by simpa using hc) (by simpa using hv)
  | false :: vs, p :: ps, c :: cs, s, w + 1, hp, hc, hv => by
    simp only [masked_update, List.getD_cons_succ]
    exact masked_update_getD_false vs ps cs s w (by simpa using hp)
      (by simpa using hc) (by simpa using hv)

/-- If every resampled displacement is zero and the current row already equals
the previous row, the masked update returns the previous row. -/
lemma masked_update_zero :
    ∀ (v : List Bool) (p s : List ℝ), p.length = v.length → (∀ a ∈ s, a = 0) →
      masked_update v p p s = p
  | [], p, s, hp, hs => by
    cases p
    · rfl
    · simp at hp
  | b :: vs, [], s, hp, hs => by simp at hp
  | true :: vs, p :: ps, [], hp, hs => by
    simp only [masked_update, List.cons.injEq, true_and]
    exact masked_update_zero vs ps [] (by simpa using hp) hs
  | true :: vs, p :: ps, s :: ss, hp, hs => by
    have hs0 : s = 0 := hs s (List.mem_cons_self _ _)
    simp only [masked_update, hs0, add_zero, List.cons.injEq, true_and]
    exact masked_update_zero vs ps ss (by simpa using hp)
      fun a ha => hs a (List.mem_cons_of_mem _ ha)
  | false :: vs, p :: ps, s, hp, hs => by
    simp only [masked_update, List.cons.injEq, true_and]
    exact masked_update_zero vs ps s (by simpa using hp) hs

end MaskedUpdate

section RejectionLoop

/-- One iteration of the rejection loop after the resampling succeeded,
split out to give the recursion a reusable unfolding equation. -/
noncomputable def rejection_step (cfg : Config) (oxy oxz : Nat → ℝ) (prev : Rows)
    (fuel : Nat) (violated : List Bool) (curRows : Rows) (counter : List Nat)
    (cur : Nat) (st : Steps3) : Except Err (Rows × Nat) :=
  let nx := masked_update violated prev.x curRows.x st.sx
  let ny := masked_update violated prev.y curRows.y st.sy
  let nz := masked_update violated prev.z curRows.z st.sz
  let violated' := check_constraints cfg nx ny nz
  let counter' := List.zipWith (fun b c => if b then c + 1 else c) violated' counter
  if (List.zipWith (fun b c => b && decide (cfg.constraint_counter ≤ c)) violated' counter').any id then
    .error .constraintExhausted
  else
    rejection_loop cfg oxy oxz prev fuel violated' ⟨nx, ny, nz⟩ counter'
      (cur + violated.count true)

lemma rejection_loop_exit (cfg : Config) (oxy oxz : Nat → ℝ) (prev : Rows)
    (fuel : Nat) (violated : List Bool) (rows : Rows) (counter : List Nat)
    (cur : Nat) (h : violated.any id = false) :
    rejection_loop cfg oxy oxz prev fuel violated rows counter cur =
      .ok (rows, cur) := by
  unfold rejection_loop
  rw [if_neg (by simp [h])]

lemma rejection_loop_fuel_zero (cfg : Config) (oxy oxz : Nat → ℝ) (prev : Rows)
    (violated : List Bool) (rows : Rows) (counter : List Nat) (cur : Nat)
    (h : violated.any id = true) :
    rejection_loop cfg oxy oxz prev 0 violated rows counter cur =
      .error .fuelOut := by
  unfold rejection_loop
  rw [if_pos h]

lemma rejection_loop_succ (cfg : Config) (oxy oxz : Nat → ℝ) (prev : Rows)
    (fuel : Nat) (violated : List Bool) (rows : Rows) (counter : List Nat)
    (cur : Nat) (st : Steps3) (h : violated.any id = true)
    (hc : calc_next_steps cfg (violated.count true) oxy oxz cur = .ok st) :
    rejection_loop cfg oxy oxz prev (fuel + 1) violated rows counter cur =
      rejection_step cfg oxy oxz prev fuel violated rows counter cur st := by
  conv_lhs => unfold rejection_loop
  rw [if_pos h, hc]
  rfl

lemma rejection_loop_succ_err (cfg : Config) (oxy oxz : Nat → ℝ) (prev : Rows)
    (fuel : Nat) (violated : List Bool) (rows : Rows) (counter : List Nat)
    (cur : Nat) (e : Err) (h : violated.any id = true)
    (hc : calc_next_steps cfg (violated.count true) oxy oxz cur = .error e) :
    rejection_loop cfg oxy oxz prev (fuel + 1) violated rows counter cur =
      .error e := by
  conv_lhs => unfold rejection_loop
  rw [if_pos h, hc]

/-- Main invariant of the rejection loop: on success the rows keep their
width, the final rows pass `check_constraints` with no violation, and an
axis whose sampled displacements are always zero is left unchanged. -/
lemma rejection_loop_ok_inv (cfg : Config) (oxy oxz : Nat → ℝ) (prev : Rows)
    (hpl : RowsLen prev cfg.number_of_walks) :
    ∀ (fuel : Nat) (violated : List Bool) (rows : Rows) (counter : List Nat)
      (cur : Nat) (r : Rows) (cur' : Nat),
      RowsLen rows cfg.number_of_walks →
      violated.length = cfg.number_of_walks →
      rejection_loop cfg oxy oxz prev fuel violated rows counter cur = .ok (r, cur') →
      RowsLen r cfg.number_of_walks ∧
      (violated = check_constraints cfg rows.x rows.y rows.z →
        (check_constraints cfg r.x r.y r.z).any id = false) ∧
      ((∀ (m c : Nat) (st : Steps3), calc_next_steps cfg m oxy oxz c = .ok st →
          ∀ a ∈ st.sy, a = 0) → rows.y = prev.y → r.y = prev.y) ∧
      ((∀ (m c : Nat) (st : Steps3), calc_next_steps cfg m oxy oxz c = .ok st →
          ∀ a ∈ st.sz, a = 0) → rows.z = prev.z → r.z = prev.z) := by
  intro fuel
  induction fuel with
  | zero =>
    intro violated rows counter cur r cur' hrl hvl hok
    by_cases hany : violated.any id = true
    · rw [rejection_loop_fuel_zero cfg oxy oxz prev violated rows counter cur hany] at hok
      cases hok
    · have hany' : violated.any id = false := by
        revert hany; cases violated.any id <;> simp
      rw [rejection_loop_exit cfg oxy oxz prev 0 violated rows counter cur hany'] at hok
      cases hok
      exact ⟨hrl, fun hv => by rw [← hv]; exact hany', fun _ h => h, fun _ h => h⟩
  | succ fuel ih =>
    intro violated rows counter cur r cur' hrl hvl hok
    by_cases hany : violated.any id = true
    · cases hc : calc_next_steps cfg (violated.count true) oxy oxz cur with
      | error e =>
        rw [rejection_loop_succ_err cfg oxy oxz prev fuel violated rows counter cur e hany hc] at hok
        cases hok
      | ok st =>
        rw [rejection_loop_succ cfg oxy oxz prev fuel violated rows counter cur st hany hc] at hok
        unfold rejection_step at hok
        dsimp only [] at hok
        split at hok
        · cases hok
        · have hnx : (masked_update violated prev.x rows.x st.sx).length =
              cfg.number_of_walks := by
            rw [masked_update_len violated prev.x rows.x st.sx
              (by rw [hpl.1, hvl]) (by rw [hrl.1, hvl]), hvl]
          have hny : (masked_update violated prev.y rows.y st.sy).length =
              cfg.number_of_walks := by
            rw [masked_update_len violated prev.y rows.y st.sy
              (by rw [hpl.2.1, hvl]) (by rw [hrl.2.1, hvl]), hvl]
          have hnz : (masked_update violated prev.z rows.z st.sz).length =
              cfg.number_of_walks := by
            rw [masked_update_len violated prev.z rows.z st.sz
              (by rw [hpl.2.2, hvl]) (by rw [hrl.2.2, hvl]), hvl]
          have hvl' : (check_constraints cfg
              (masked_update violated prev.x rows.x st.sx)
              (masked_update violated prev.y rows.y st.sy)
              (masked_update violated prev.z rows.z st.sz)).length =
              cfg.number_of_walks := by
            rw [check_constraints_len (by rw [hny, hnx]) (by rw [hnz, hnx]), hnx]
          have := ih _ ⟨_, _, _⟩ _ _ r cur' ⟨hnx, hny, hnz⟩ hvl' hok
          refine ⟨this.1, fun _ => this.2.1 rfl, fun hzero hy => ?_, fun hzero hz => ?_⟩
          · refine this.2.2.1 hzero ?_
            show masked_update violated prev.y rows.y st.sy = prev.y
            rw [hy]
            exact masked_update_zero violated prev.y st.sy (by rw [hpl.2.1, hvl])
              (hzero _ _ _ hc)
          · refine this.2.2.2 hzero ?_
            show masked_update violated prev.z rows.z st.sz = prev.z
            rw [hz]
            exact masked_update_zero violated prev.z st.sz (by rw [hpl.2.2, hvl])
              (hzero _ _ _ hc)
    · have hany' : violated.any id = false := by
        revert hany; cases violated.any id <;> simp
      rw [rejection_loop_exit cfg oxy oxz prev (fuel + 1) violated rows counter cur hany'] at hok
      cases hok
      exact ⟨hrl, fun hv => by rw [← hv]; exact hany', fun _ h => h, fun _ h => h⟩

end RejectionLoop

section GenLoop

/-- Invariant of one step body: on success the produced row keeps its width,
passes the constraint check when `wall_mode` is 'exclude', and an axis whose
sampled displacements are always zero keeps its previous values. -/
lemma do_step_ok_inv (cfg : Config) (oxy oxz : Nat → ℝ) (prev : Rows) (cur : Nat)
    (r : Rows) (cur' : Nat) (hpl : RowsLen prev cfg.number_of_walks)
    (hok : do_step cfg oxy oxz prev cur = .ok (r, cur')) :
    RowsLen r cfg.number_of_walks ∧
    (cfg.wall_mode = "exclude" →
      (check_constraints cfg r.x r.y r.z).any id = false) ∧
    ((∀ (m c : Nat) (st : Steps3), calc_next_steps cfg m oxy oxz c = .ok st →
        ∀ a ∈ st.sy, a = 0) → r.y = prev.y) ∧
    ((∀ (m c : Nat) (st : Steps3), calc_next_steps cfg m oxy oxz c = .ok st →
        ∀ a ∈ st.sz, a = 0) → r.z = prev.z) := by
  unfold do_step at hok
  cases hc : calc_next_steps cfg cfg.number_of_walks oxy oxz cur with
  | error e => rw [hc] at hok; cases hok
  | ok st =>
    rw [hc] at hok
    dsimp only [] at hok
    obtain ⟨hsx, hsy, hsz⟩ := calc_next_steps_len hc
    have hnx : (List.zipWith (· + ·) prev.x st.sx).length = cfg.number_of_walks := by
      rw [List.length_zipWith, hsx, hpl.1, min_self]
    have hny : (List.zipWith (· + ·) prev.y st.sy).length = cfg.number_of_walks := by
      rw [List.length_zipWith, hsy, hpl.2.1, min_self]
    have hnz : (List.zipWith (· + ·) prev.z st.sz).length = cfg.number_of_walks := by
      rw [List.length_zipWith, hsz, hpl.2.2, min_self]
    split at hok
    · -- wall_mode = 'exclude': the rejection loop ran
      have hvl : (check_constraints cfg (List.zipWith (· + ·) prev.x st.sx)
          (List.zipWith (· + ·) prev.y st.sy)
          (List.zipWith (· + ·) prev.z st.sz)).length = cfg.number_of_walks := by
        rw [check_constraints_len (by rw [hny, hnx]) (by rw [hnz, hnx]), hnx]
      have := rejection_loop_ok_inv cfg oxy oxz prev hpl _ _ ⟨_, _, _⟩ _ _ r cur'
        ⟨hnx, hny, hnz⟩ hvl hok
      refine ⟨this.1, fun _ => this.2.1 rfl, fun hzero => ?_, fun hzero => ?_⟩
      · exact this.2.2.1 hzero
          (zipWith_add_zero (hzero _ _ _ hc) (by rw [hpl.2.1, hsy]))
      · exact this.2.2.2 hzero
          (zipWith_add_zero (hzero _ _ _ hc) (by rw [hpl.2.2, hsz]))
    · split at hok
      · -- wall_mode = 'reflect': the candidate row is kept as is
        cases hok
        refine ⟨⟨hnx, hny, hnz⟩, fun hx => ?_, fun hzero => ?_, fun hzero => ?_⟩
        · exact absurd hx (by assumption)
        · exact zipWith_add_zero (hzero _ _ _ hc) (by rw [hpl.2.1, hsy])
        · exact zipWith_add_zero (hzero _ _ _ hc) (by rw [hpl.2.2, hsz])
      · cases hok

/-- Invariant of the per-step loop: on success there is one row per step, all
rows keep their width, all pass the constraint check under 'exclude', and an
always-zero axis keeps its start value in every row. -/
lemma gen_loop_ok_inv (cfg : Config) (oxy oxz : Nat → ℝ) :
    ∀ (k : Nat) (prev : Rows) (cur : Nat) (rows : List Rows),
      RowsLen prev cfg.number_of_walks →
      gen_loop cfg oxy oxz k prev cur = .ok rows →
      rows.length = k ∧
      ∀ r ∈ rows, RowsLen r cfg.number_of_walks ∧
        (cfg.wall_mode = "exclude" →
          (check_constraints cfg r.x r.y r.z).any id = false) ∧
        ((∀ (m c : Nat) (st : Steps3), calc_next_steps cfg m oxy oxz c = .ok st →
            ∀ a ∈ st.sy, a = 0) → r.y = prev.y) ∧
        ((∀ (m c : Nat) (st : Steps3), calc_next_steps cfg m oxy oxz c = .ok st →
            ∀ a ∈ st.sz, a = 0) → r.z = prev.z) := by
  intro k
  induction k with
  | zero =>
    intro prev cur rows hpl hok
    cases hok
    exact ⟨rfl, by simp⟩
  | succ k ih =>
    intro prev cur rows hpl hok
    unfold gen_loop at hok
    cases hd : do_step cfg oxy oxz prev cur with
    | error e => rw [hd] at hok; cases hok
    | ok rc =>
      obtain ⟨r1, cur1⟩ := rc
      rw [hd] at hok
      dsimp only [] at hok
      cases hg : gen_loop cfg oxy oxz k r1 cur1 with
      | error e => rw [hg] at hok; cases hok
      | ok rest =>
        rw [hg] at hok
        cases hok
        obtain ⟨h1len, h1chk, h1y, h1z⟩ := do_step_ok_inv cfg oxy oxz prev cur r1 cur1 hpl hd
        obtain ⟨hrlen, hrest⟩ := ih r1 cur1 rest h1len hg
        refine ⟨by simp [hrlen], ?_⟩
        intro r hr
        rcases List.mem_cons.1 hr with rfl | hr
        · exact ⟨h1len, h1chk, h1y, h1z⟩
        · obtain ⟨ha, hb, hcy, hcz⟩ := hrest r hr
          exact ⟨ha, hb, fun hz => (hcy hz).trans (h1y hz),
            fun hz => (hcz hz).trans (h1z hz)⟩

/-- Inversion of a successful generation: the matrices are the projections of
the start row followed by the rows produced by the per-step loop. -/
lemma generate_ok_inv {cfg : Config} {oxy oxz : Nat → ℝ} {t : Traj}
    (hok : generate_walk_coordinates cfg oxy oxz = .ok t) :
    ∃ rows, gen_loop cfg oxy oxz cfg.step_number (start_rows cfg) 0 = .ok rows ∧
      t = ⟨(start_rows cfg :: rows).map Rows.x, (start_rows cfg :: rows).map Rows.y,
           (start_rows cfg :: rows).map Rows.z⟩ := by
  unfold generate_walk_coordinates at hok
  dsimp only [] at hok
  cases hg : gen_loop cfg oxy oxz cfg.step_number (start_rows cfg) 0 with
  | error e => rw [hg] at hok; cases hok
  | ok rows =>
    rw [hg] at hok
    cases hok
    exact ⟨rows, rfl, rfl⟩

end GenLoop

section TrajectoryAccess

lemma getD_false_of_any_false {l : List Bool} (h : l.any id = false) (w : Nat) :
    l.getD w false = false := by
  by_cases hw : w < l.length
  · rw [List.getD_eq_getElem _ _ hw]
    have := List.any_eq_false.1 h _ (List.getElem_mem hw)
    simpa using this
  · simp [List.getD_eq_getElem?_getD, List.getElem?_eq_none (by omega : l.length ≤ w)]

lemma gen_loop_succ_ok {cfg : Config} {oxy oxz : Nat → ℝ} {k : Nat} {prev r : Rows}
    {cur cur1 : Nat} {rest : List Rows}
    (hd : do_step cfg oxy oxz prev cur = .ok (r, cur1))
    (hg : gen_loop cfg oxy oxz k r cur1 = .ok rest) :
    gen_loop cfg oxy oxz (k + 1) prev cur = .ok (r :: rest) := by
  unfold gen_loop
  rw [hd]
  dsimp only []
  rw [hg]

lemma gen_loop_succ_err {cfg : Config} {oxy oxz : Nat → ℝ} {k : Nat} {prev : Rows}
    {cur : Nat} {e : Err} (hd : do_step cfg oxy oxz prev cur = .error e) :
    gen_loop cfg oxy oxz (k + 1) prev cur = .error e := by
  unfold gen_loop
  rw [hd]

lemma generate_eq_of_gen_loop {cfg : Config} {oxy oxz : Nat → ℝ} {rows : List Rows}
    (hg : gen_loop cfg oxy oxz cfg.step_number (start_rows cfg) 0 = .ok rows) :
    generate_walk_coordinates cfg oxy oxz =
      .ok ⟨(start_rows cfg :: rows).map Rows.x, (start_rows cfg :: rows).map Rows.y,
           (start_rows cfg :: rows).map Rows.z⟩ := by
  unfold generate_walk_coordinates
  dsimp only []
  rw [hg]

lemma generate_err_of_gen_loop {cfg : Config} {oxy oxz : Nat → ℝ} {e : Err}
    (hg : gen_loop cfg oxy oxz cfg.step_number (start_rows cfg) 0 = .error e) :
    generate_walk_coordinates cfg oxy oxz = .error e := by
  unfold generate_walk_coordinates
  dsimp only []
  rw [hg]

/-- The row of index `1 ≤ s ≤ step_number` of a successful generation is a
member of the rows produced by the step loop. -/
lemma generate_row_mem {cfg : Config} {oxy oxz : Nat → ℝ} {rows : List Rows}
    (hg : gen_loop cfg oxy oxz cfg.step_number (start_rows cfg) 0 = .ok rows)
    (hlen : rows.length = cfg.step_number)
    {s : Nat} (hs1 : 1 ≤ s) (hs2 : s ≤ cfg.step_number) :
    ∃ r ∈ rows,
      ((start_rows cfg :: rows).map Rows.x).getD s [] = r.x ∧
      ((start_rows cfg :: rows).map Rows.y).getD s [] = r.y ∧
      ((start_rows cfg :: rows).map Rows.z).getD s [] = r.z := by
  have hslt : s < (start_rows cfg :: rows).length := by
    simp only [List.length_cons, hlen]; omega
  have hsm : s - 1 < rows.length := by omega
  have hcons : (start_rows cfg :: rows).getD s ⟨[], [], []⟩ =
      rows.getD (s - 1) ⟨[], [], []⟩ := by
    obtain ⟨s', rfl⟩ : ∃ s', s = s' + 1 := ⟨s - 1, by omega⟩
    simp
  refine ⟨rows.getD (s - 1) ⟨[], [], []⟩, ?_, ?_, ?_, ?_⟩
  · rw [List.getD_eq_getElem _ _ hsm]
    exact List.getElem_mem hsm
  all_goals rw [getD_map hslt _ ⟨[], [], []⟩, hcons]

end TrajectoryAccess

section ClaimC1

/-- Claim C1 (amended form): with `wall_mode = 'exclude'`, after a successful
generation every coordinate in every row other than the start row lies within
the configured axis limits inclusively, for all walks; axes without limits
impose nothing.  (The start row, row 0, is copied from `start_x/y/z` without
any constraint check, which is what forces the amendment.) -/
theorem C1_boundary_invariant_amended (cfg : Config) (oxy oxz : Nat → ℝ) (t : Traj)
    (hmode : cfg.wall_mode = "exclude")
    (hlim : cfg.x_limits ≠ none ∨ cfg.y_limits ≠ none ∨ cfg.z_limits ≠ none)
    (hsx : (cfg.start_x.toRow cfg.number_of_walks).length = cfg.number_of_walks)
    (hsy : (cfg.start_y.toRow cfg.number_of_walks).length = cfg.number_of_walks)
    (hsz : (cfg.start_z.toRow cfg.number_of_walks).length = cfg.number_of_walks)
    (hok : generate_walk_coordinates cfg oxy oxz = .ok t)
    (s w : Nat) (hs1 : 1 ≤ s) (hs2 : s ≤ cfg.step_number)
    (hw : w < cfg.number_of_walks) :
    (∀ lo hi, cfg.x_limits = some (lo, hi) →
      lo ≤ coord t.x s w ∧ coord t.x s w ≤ hi) ∧
    (∀ lo hi, cfg.y_limits = some (lo, hi) →
      lo ≤ coord t.y s w ∧ coord t.y s w ≤ hi) ∧
    (∀ lo hi, cfg.z_limits = some (lo, hi) →
      lo ≤ coord t.z s w ∧ coord t.z s w ≤ hi) := by
  obtain ⟨rows, hg, rfl⟩ := generate_ok_inv hok
  obtain ⟨hrlen, hmem⟩ := gen_loop_ok_inv cfg oxy oxz cfg.step_number
    (start_rows cfg) 0 rows ⟨hsx, hsy, hsz⟩ hg
  obtain ⟨r, hrmem, hxr, hyr, hzr⟩ := generate_row_mem hg hrlen hs1 hs2
  obtain ⟨hrl, hchk, -, -⟩ := hmem r hrmem
  have hcw : (check_constraints cfg r.x r.y r.z).getD w false = false :=
    getD_false_of_any_false (hchk hmode) w
  rw [check_constraints_getD (by rw [hrl.1]; exact hw)
    (by rw [hrl.2.1, hrl.1]) (by rw [hrl.2.2, hrl.1])] at hcw
  simp only [Bool.or_eq_false_iff] at hcw
  unfold coord
  rw [hxr, hyr, hzr]
  exact ⟨axis_violation_false hcw.1.1, axis_violation_false hcw.1.2,
    axis_violation_false hcw.2⟩

end ClaimC1

section ClaimC1Concrete

/-- Concrete configuration refuting the "every row" reading of the boundary
invariant: the start position 3/2 lies outside the x-limits [0, 1]. -/
noncomputable def cfgC1 : Config where
  step_number := 1
  number_of_walks := 1
  start_x := .scalar (3 / 2)
  start_y := .scalar 0
  start_z := .scalar 0
  dimensions := 1
  step_length := 1
  angles_xy := none
  angles_xz := none
  angles_xy_p := none
  angles_xz_p := none
  x_limits := some (0, 1)
  y_limits := none
  z_limits := none
  constraint_counter := 1000
  wall_mode := "exclude"

noncomputable def oraC1 : Nat → ℝ := fun _ => Real.pi

lemma cfgC1_calc : calc_next_steps cfgC1 1 oraC1 oraC1 0 =
    .ok ⟨[-1], [0], [0]⟩ := by
  rw [calc_next_steps_ok _ _ _ _ _ (Or.inl rfl)]
  norm_num [List.range_succ, oraC1, xz_angle, cfgC1]

lemma cfgC1_check : check_constraints cfgC1 [1 / 2] [0] [0] = [false] := by
  unfold check_constraints
  norm_num [show cfgC1.x_limits = some (0, 1) from rfl,
    show cfgC1.y_limits = none from rfl, show cfgC1.z_limits = none from rfl]

lemma cfgC1_step : do_step cfgC1 oraC1 oraC1 (start_rows cfgC1) 0 =
    .ok (⟨[1 / 2], [0], [0]⟩, 1) := by
  unfold do_step
  rw [show cfgC1.number_of_walks = 1 from rfl, cfgC1_calc]
  dsimp only []
  rw [show start_rows cfgC1 = ⟨[3 / 2], [0], [0]⟩ from rfl]
  dsimp only [List.zipWith_cons_cons, List.zipWith_nil_right]
  norm_num
  have hwm : cfgC1.wall_mode = "exclude" := rfl
  rw [hwm, if_pos rfl, cfgC1_check,
    rejection_loop_exit _ _ _ _ _ _ _ _ _ (by decide)]

/-- The trajectory produced by `cfgC1` with the constant-π oracle: the single
step moves the walk from 3/2 down to 1/2. -/
noncomputable def trajC1 : Traj := ⟨[[3 / 2], [1 / 2]], [[0], [0]], [[0], [0]]⟩

lemma cfgC1_generate :
    generate_walk_coordinates cfgC1 oraC1 oraC1 = .ok trajC1 := by
  have hg : gen_loop cfgC1 oraC1 oraC1 cfgC1.step_number (start_rows cfgC1) 0 =
      .ok [⟨[1 / 2], [0], [0]⟩] :=
    gen_loop_succ_ok cfgC1_step rfl
  rw [generate_eq_of_gen_loop hg]
  rfl

/-- Claim C1 counterexample: a successful 'exclude'-mode generation whose
row 0 (the start row) exceeds the configured x-limits, so "every coordinate
in every row lies within [min,max]" is false as stated: the claim holds only
for the rows after the start row. -/
theorem C1_counterexample :
    cfgC1.wall_mode = "exclude" ∧ cfgC1.x_limits = some (0, 1) ∧
    generate_walk_coordinates cfgC1 oraC1 oraC1 = .ok trajC1 ∧
    ¬(coord trajC1.x 0 0 ≤ 1) := by
  refine ⟨rfl, rfl, cfgC1_generate, ?_⟩
  norm_num [coord, trajC1]

/-- Witness for the amended claim C1 at the concrete input `cfgC1`. -/
theorem C1_witness :
    (∀ lo hi, cfgC1.x_limits = some (lo, hi) →
      lo ≤ coord trajC1.x 1 0 ∧ coord trajC1.x 1 0 ≤ hi) ∧
    (∀ lo hi, cfgC1.y_limits = some (lo, hi) →
      lo ≤ coord trajC1.y 1 0 ∧ coord trajC1.y 1 0 ≤ hi) ∧
    (∀ lo hi, cfgC1.z_limits = some (lo, hi) →
      lo ≤ coord trajC1.z 1 0 ∧ coord trajC1.z 1 0 ≤ hi) :=
  C1_boundary_invariant_amended cfgC1 oraC1 oraC1 trajC1 rfl
    (Or.inl (by simp [cfgC1])) rfl rfl rfl cfgC1_generate 1 0
    (by decide) (by decide) (by decide)

end ClaimC1Concrete

section ZeroSteps

/-- With `step_number = 0` the `for curr_step in range(...)` loop body never
runs, so generation succeeds whatever `wall_mode` holds, and each coordinate
matrix is the single start row. -/
lemma generate_zero_steps (cfg : Config) (oxy oxz : Nat → ℝ)
    (h0 : cfg.step_number = 0) :
    generate_walk_coordinates cfg oxy oxz =
      .ok ⟨[cfg.start_x.toRow cfg.number_of_walks],
           [cfg.start_y.toRow cfg.number_of_walks],
           [cfg.start_z.toRow cfg.number_of_walks]⟩ := by
  have hg : gen_loop cfg oxy oxz cfg.step_number (start_rows cfg) 0 = .ok [] := by
    rw [h0]; rfl
  rw [generate_eq_of_gen_loop hg]
  rfl

end ZeroSteps

section ClaimC10

/-- Claim C10: when `step_number` is 0 the per-step loop body never executes,
so generation succeeds for every `wall_mode` value (no `ValueError` even for
strings outside exclude/reflect) and each of the x, y, z matrices is exactly
one row holding the start positions. -/
theorem C10_zero_steps_any_wall_mode (cfg : Config) (oxy oxz : Nat → ℝ)
    (h0 : cfg.step_number = 0) :
    generate_walk_coordinates cfg oxy oxz =
      .ok ⟨[cfg.start_x.toRow cfg.number_of_walks],
           [cfg.start_y.toRow cfg.number_of_walks],
           [cfg.start_z.toRow cfg.number_of_walks]⟩ :=
  generate_zero_steps cfg oxy oxz h0

/-- Concrete zero-step configuration with a nonsense `wall_mode` and invalid
`dimensions`. -/
noncomputable def cfgC10 : Config where
  step_number := 0
  number_of_walks := 2
  start_x := .scalar 5
  start_y := .perWalk [1, 2]
  start_z := .scalar 0
  dimensions := 7
  step_length := 1
  angles_xy := none
  angles_xz := none
  angles_xy_p := none
  angles_xz_p := none
  x_limits := none
  y_limits := none
  z_limits := none
  constraint_counter := 1000
  wall_mode := "banana"

/-- Witness for claim C10 at a configuration whose `wall_mode` is the string
'banana' (and whose `dimensions` is 7): generation still succeeds. -/
theorem C10_witness :
    generate_walk_coordinates cfgC10 (fun _ => 0) (fun _ => 0) =
      .ok ⟨[[5, 5]], [[1, 2]], [[0, 0]]⟩ := by
  have h := C10_zero_steps_any_wall_mode cfgC10 (fun _ => 0) (fun _ => 0) rfl
  simpa [cfgC10, StartPos.toRow, List.replicate] using h

end ClaimC10

section ClaimC6

/-- Claim C6 (amended form): provided at least one step is generated
(`step_number ≥ 1`), a configuration with `dimensions` outside {1,2,3} or
with `wall_mode` outside {exclude, reflect} makes generation fail with the
configuration `ValueError`; nothing is checked at configuration construction
time, and the error surfaces in the first step that is executed. -/
theorem C6_invalid_config_amended (cfg : Config) (oxy oxz : Nat → ℝ)
    (hs : 1 ≤ cfg.step_number) :
    (¬(cfg.dimensions = 1 ∨ cfg.dimensions = 2 ∨ cfg.dimensions = 3) →
      generate_walk_coordinates cfg oxy oxz = .error .invalidConfiguration) ∧
    (cfg.wall_mode ≠ "exclude" → cfg.wall_mode ≠ "reflect" →
      generate_walk_coordinates cfg oxy oxz = .error .invalidConfiguration) := by
  obtain ⟨k, hk⟩ : ∃ k, cfg.step_number = k + 1 :=
    ⟨cfg.step_number - 1, by omega⟩
  constructor
  · intro hdim
    have hd : do_step cfg oxy oxz (start_rows cfg) 0 =
        .error .invalidConfiguration := by
      unfold do_step
      rw [calc_next_steps_err _ _ _ _ _ hdim]
    exact generate_err_of_gen_loop (by rw [hk]; exact gen_loop_succ_err hd)
  · intro hw1 hw2
    by_cases hdim : cfg.dimensions = 1 ∨ cfg.dimensions = 2 ∨ cfg.dimensions = 3
    · have hd : do_step cfg oxy oxz (start_rows cfg) 0 =
          .error .invalidConfiguration := by
        unfold do_step
        rw [calc_next_steps_ok _ _ _ _ _ hdim]
        dsimp only []
        rw [if_neg hw1, if_neg hw2]
      exact generate_err_of_gen_loop (by rw [hk]; exact gen_loop_succ_err hd)
    · have hd : do_step cfg oxy oxz (start_rows cfg) 0 =
          .error .invalidConfiguration := by
        unfold do_step
        rw [calc_next_steps_err _ _ _ _ _ hdim]
      exact generate_err_of_gen_loop (by rw [hk]; exact gen_loop_succ_err hd)

/-- Concrete configuration with invalid `dimensions = 5` and zero steps. -/
noncomputable def cfgC6 : Config where
  step_number := 0
  number_of_walks := 1
  start_x := .scalar 0
  start_y := .scalar 0
  start_z := .scalar 0
  dimensions := 5
  step_length := 1
  angles_xy := none
  angles_xz := none
  angles_xy_p := none
  angles_xz_p := none
  x_limits := none
  y_limits := none
  z_limits := none
  constraint_counter := 1000
  wall_mode := "exclude"

/-- Claim C6 counterexample: a configuration with `dimensions = 5` (outside
{1,2,3}) whose generation runs and succeeds, because `step_number = 0` means
the validating code is never reached — so "fails with InvalidConfiguration
when generation runs" is false without a step-count hypothesis. -/
theorem C6_counterexample :
    ¬(cfgC6.dimensions = 1 ∨ cfgC6.dimensions = 2 ∨ cfgC6.dimensions = 3) ∧
    generate_walk_coordinates cfgC6 (fun _ => 0) (fun _ => 0) =
      .ok ⟨[[0]], [[0]], [[0]]⟩ := by
  constructor
  · decide
  · have h := generate_zero_steps cfgC6 (fun _ => 0) (fun _ => 0) rfl
    simpa [cfgC6, StartPos.toRow, List.replicate] using h

/-- Concrete configuration: invalid dimensions, one step. -/
noncomputable def cfgC6a : Config where
  step_number := 1
  number_of_walks := 1
  start_x := .scalar 0
  start_y := .scalar 0
  start_z := .scalar 0
  dimensions := 7
  step_length := 1
  angles_xy := none
  angles_xz := none
  angles_xy_p := none
  angles_xz_p := none
  x_limits := none
  y_limits := none
  z_limits := none
  constraint_counter := 1000
  wall_mode := "exclude"

/-- Concrete configuration: valid dimensions, invalid wall mode, one step. -/
noncomputable def cfgC6b : Config where
  step_number := 1
  number_of_walks := 1
  start_x := .scalar 0
  start_y := .scalar 0
  start_z := .scalar 0
  dimensions := 2
  step_length := 1
  angles_xy := none
  angles_xz := none
  angles_xy_p := none
  angles_xz_p := none
  x_limits := none
  y_limits := none
  z_limits := none
  constraint_counter := 1000
  wall_mode := "bounce"

/-- Witness for the amended claim C6: with one step, invalid dimensions and
an invalid wall mode each raise the configuration error. -/
theorem C6_witness :
    generate_walk_coordinates cfgC6a (fun _ => 0) (fun _ => 0) =
      .error .invalidConfiguration ∧
    generate_walk_coordinates cfgC6b (fun _ => 0) (fun _ => 0) =
      .error .invalidConfiguration :=
  ⟨(C6_invalid_config_amended cfgC6a (fun _ => 0) (fun _ => 0) (by decide)).1
      (by decide),
   (C6_invalid_config_amended cfgC6b (fun _ => 0) (fun _ => 0) (by decide)).2
      (by decide) (by decide)⟩

end ClaimC6

section ClaimC4

lemma calc_next_steps_strip_limits (cfg : Config) (n : Nat) (oxy oxz : Nat → ℝ)
    (cur : Nat) :
    calc_next_steps
      { cfg with x_limits := none, y_limits := none, z_limits := none }
      n oxy oxz cur = calc_next_steps cfg n oxy oxz cur := rfl

lemma do_step_reflect_congr (cfg : Config) (oxy oxz : Nat → ℝ)
    (hmode : cfg.wall_mode = "reflect") (prev : Rows) (cur : Nat) :
    do_step { cfg with x_limits := none, y_limits := none, z_limits := none }
        oxy oxz prev cur = do_step cfg oxy oxz prev cur := by
  unfold do_step
  rw [calc_next_steps_strip_limits]
  cases hc : calc_next_steps cfg cfg.number_of_walks oxy oxz cur with
  | error e => rfl
  | ok st =>
    dsimp only []
    rw [hmode]
    simp only [if_neg (show ¬(("reflect" : String) = "exclude") by decide),
      if_pos (show ("reflect" : String) = "reflect" from rfl)]

lemma gen_loop_reflect_congr (cfg : Config) (oxy oxz : Nat → ℝ)
    (hmode : cfg.wall_mode = "reflect") :
    ∀ (k : Nat) (prev : Rows) (cur : Nat),
      gen_loop { cfg with x_limits := none, y_limits := none, z_limits := none }
        oxy oxz k prev cur = gen_loop cfg oxy oxz k prev cur := by
  intro k
  induction k with
  | zero => intro prev cur; rfl
  | succ k ih =>
    intro prev cur
    unfold gen_loop
    rw [do_step_reflect_congr cfg oxy oxz hmode prev cur]
    cases hd : do_step cfg oxy oxz prev cur with
    | error e => rfl
    | ok rc =>
      obtain ⟨r1, cur1⟩ := rc
      dsimp only []
      rw [ih r1 cur1]

/-- Claim C4: under `wall_mode = 'reflect'` the constraint branch is a no-op:
generation behaves exactly as if no axis limits were configured, so violating
coordinates are left in place in the trajectory. -/
theorem C4_reflect_noop (cfg : Config) (oxy oxz : Nat → ℝ)
    (hmode : cfg.wall_mode = "reflect") :
    generate_walk_coordinates cfg oxy oxz =
      generate_walk_coordinates
        { cfg with x_limits := none, y_limits := none, z_limits := none }
        oxy oxz := by
  have hsr : start_rows
      { cfg with x_limits := none, y_limits := none, z_limits := none } =
      start_rows cfg := rfl
  unfold generate_walk_coordinates
  dsimp only []
  rw [gen_loop_reflect_congr cfg oxy oxz hmode, hsr]

/-- Concrete reflect-mode configuration with narrow x-limits the walk can
escape, used to witness claim C4. -/
noncomputable def cfgC4 : Config where
  step_number := 1
  number_of_walks := 1
  start_x := .scalar 0
  start_y := .scalar 0
  start_z := .scalar 0
  dimensions := 1
  step_length := 1
  angles_xy := none
  angles_xz := none
  angles_xy_p := none
  angles_xz_p := none
  x_limits := some (-1 / 2, 1 / 2)
  y_limits := none
  z_limits := none
  constraint_counter := 1000
  wall_mode := "reflect"

/-- Witness for claim C4 at the concrete input `cfgC4`. -/
theorem C4_witness :
    generate_walk_coordinates cfgC4 (fun _ => 0) (fun _ => 0) =
      generate_walk_coordinates
        { cfgC4 with x_limits := none, y_limits := none, z_limits := none }
        (fun _ => 0) (fun _ => 0) :=
  C4_reflect_noop cfgC4 (fun _ => 0) (fun _ => 0) rfl

end ClaimC4

section ClaimC9

lemma sum_map_div (l : List ℝ) (s : ℝ) :
    (l.map fun v => v / s).sum = l.sum / s := by
  induction l with
  | nil => simp
  | cons a l ih => simp [ih, add_div]

lemma random_walk_init_p {cfg : Config} {oxy oxz : Nat → ℝ}
    {res : RandomWalkResult} (hok : random_walk_init cfg oxy oxz = .ok res) :
    res.angles_xy_p = normalize_p cfg.angles_xy_p ∧
    res.angles_xz_p = normalize_p cfg.angles_xz_p := by
  unfold random_walk_init at hok
  dsimp only [] at hok
  cases hg : generate_walk_coordinates
      { cfg with angles_xy_p := normalize_p cfg.angles_xy_p,
                 angles_xz_p := normalize_p cfg.angles_xz_p } oxy oxz with
  | error e => rw [hg] at hok; cases hok
  | ok t =>
    rw [hg] at hok
    cases hok
    exact ⟨rfl, rfl⟩

/-- Claim C9: for any probability vector of positive values, the value stored
at construction time sums to 1 (it is normalized once, in `__init__`); a
`None` vector is stored as `None`.  This covers both `angles_xy_p` and
`angles_xz_p`. -/
theorem C9_normalization (cfg : Config) (oxy oxz : Nat → ℝ)
    (res : RandomWalkResult)
    (hok : random_walk_init cfg oxy oxz = .ok res) :
    (∀ l, cfg.angles_xy_p = some l → l ≠ [] → (∀ v ∈ l, 0 < v) →
      ∃ l', res.angles_xy_p = some l' ∧ l'.sum = 1) ∧
    (cfg.angles_xy_p = none → res.angles_xy_p = none) ∧
    (∀ l, cfg.angles_xz_p = some l → l ≠ [] → (∀ v ∈ l, 0 < v) →
      ∃ l', res.angles_xz_p = some l' ∧ l'.sum = 1) ∧
    (cfg.angles_xz_p = none → res.angles_xz_p = none) := by
  obtain ⟨hxy, hxz⟩ := random_walk_init_p hok
  refine ⟨fun l hl hne hpos => ?_, fun hl => ?_, fun l hl hne hpos => ?_,
    fun hl => ?_⟩
  · refine ⟨l.map fun v => v / l.sum, by rw [hxy, hl]; rfl, ?_⟩
    rw [sum_map_div]
    exact div_self (ne_of_gt (List.sum_pos l hpos hne))
  · rw [hxy, hl]; rfl
  · refine ⟨l.map fun v => v / l.sum, by rw [hxz, hl]; rfl, ?_⟩
    rw [sum_map_div]
    exact div_self (ne_of_gt (List.sum_pos l hpos hne))
  · rw [hxz, hl]; rfl

/-- Concrete zero-step configuration with probability vectors `[1, 3]` for the
xy-angles and `None` for the xz-angles. -/
noncomputable def cfgC9 : Config where
  step_number := 0
  number_of_walks := 1
  start_x := .scalar 0
  start_y := .scalar 0
  start_z := .scalar 0
  dimensions := 1
  step_length := 1
  angles_xy := some [0, Real.pi]
  angles_xz := none
  angles_xy_p := some [1, 3]
  angles_xz_p := none
  x_limits := none
  y_limits := none
  z_limits := none
  constraint_counter := 1000
  wall_mode := "exclude"

lemma cfgC9_init : random_walk_init cfgC9 (fun _ => 0) (fun _ => 0) =
    .ok ⟨some [1 / 4, 3 / 4], none, ⟨[[0]], [[0]], [[0]]⟩,
         [Real.sqrt 0], Real.sqrt 0⟩ := by
  unfold random_walk_init
  dsimp only []
  rw [generate_zero_steps _ _ _ rfl]
  dsimp only []
  norm_num [cfgC9, StartPos.toRow, normalize_p, end2end_real, end2end,
    first_last_diff, mean, List.replicate]

/-- Witness for claim C9 at the concrete input `cfgC9`. -/
theorem C9_witness :
    ∃ l' : List ℝ,
      (some [(1 : ℝ) / 4, 3 / 4] : Option (List ℝ)) = some l' ∧ l'.sum = 1 := by
  have h := (C9_normalization cfgC9 (fun _ => 0) (fun _ => 0) _ cfgC9_init).1
    [1, 3] rfl (by simp) (by norm_num)
  simpa using h

end ClaimC9

section ClaimC5

/-- Two-walk, two-step, one-dimensional configuration whose walks end with
different displacement magnitudes (2 and 0). -/
noncomputable def cfgC5 : Config where
  step_number := 2
  number_of_walks := 2
  start_x := .scalar 0
  start_y := .scalar 0
  start_z := .scalar 0
  dimensions := 1
  step_length := 1
  angles_xy := none
  angles_xz := none
  angles_xy_p := none
  angles_xz_p := none
  x_limits := none
  y_limits := none
  z_limits := none
  constraint_counter := 1000
  wall_mode := "exclude"

/-- Oracle for `cfgC5`: the fourth draw is π (second step of the second
walk), everything else 0. -/
noncomputable def oraC5 : Nat → ℝ := fun i => if i = 3 then Real.pi else 0

lemma cfgC5_calc1 : calc_next_steps cfgC5 2 oraC5 oraC5 0 =
    .ok ⟨[1, 1], [0, 0], [0, 0]⟩ := by
  rw [calc_next_steps_ok _ _ _ _ _ (Or.inl rfl)]
  norm_num [List.range_succ, oraC5, xz_angle, cfgC5]

lemma cfgC5_calc2 : calc_next_steps cfgC5 2 oraC5 oraC5 2 =
    .ok ⟨[1, -1], [0, 0], [0, 0]⟩ := by
  rw [calc_next_steps_ok _ _ _ _ _ (Or.inl rfl)]
  norm_num [List.range_succ, oraC5, xz_angle, cfgC5]

lemma cfgC5_check {cx cy cz : List ℝ} :
    check_constraints cfgC5 cx cy cz = List.replicate cx.length false :=
  check_constraints_no_limits cx cy cz rfl rfl rfl

lemma cfgC5_step1 : do_step cfgC5 oraC5 oraC5 (start_rows cfgC5) 0 =
    .ok (⟨[1, 1], [0, 0], [0, 0]⟩, 2) := by
  unfold do_step
  rw [show cfgC5.number_of_walks = 2 from rfl, cfgC5_calc1]
  dsimp only []
  rw [show start_rows cfgC5 = ⟨[0, 0], [0, 0], [0, 0]⟩ from rfl]
  dsimp only [List.zipWith_cons_cons, List.zipWith_nil_right]
  norm_num
  have hwm : cfgC5.wall_mode = "exclude" := rfl
  rw [hwm, if_pos rfl, cfgC5_check,
    rejection_loop_exit _ _ _ _ _ _ _ _ _ (by decide)]

lemma cfgC5_step2 : do_step cfgC5 oraC5 oraC5 ⟨[1, 1], [0, 0], [0, 0]⟩ 2 =
    .ok (⟨[2, 0], [0, 0], [0, 0]⟩, 4) := by
  unfold do_step
  rw [show cfgC5.number_of_walks = 2 from rfl, cfgC5_calc2]
  dsimp only [List.zipWith_cons_cons, List.zipWith_nil_right]
  norm_num
  have hwm : cfgC5.wall_mode = "exclude" := rfl
  rw [hwm, if_pos rfl, cfgC5_check,
    rejection_loop_exit _ _ _ _ _ _ _ _ _ (by decide)]

/-- The trajectory generated by `cfgC5` with `oraC5`: walk 1 goes 0,1,2 and
walk 2 goes 0,1,0. -/
noncomputable def trajC5 : Traj :=
  ⟨[[0, 0], [1, 1], [2, 0]], [[0, 0], [0, 0], [0, 0]], [[0, 0], [0, 0], [0, 0]]⟩

lemma cfgC5_generate :
    generate_walk_coordinates cfgC5 oraC5 oraC5 = .ok trajC5 := by
  have hg : gen_loop cfgC5 oraC5 oraC5 cfgC5.step_number (start_rows cfgC5) 0 =
      .ok [⟨[1, 1], [0, 0], [0, 0]⟩, ⟨[2, 0], [0, 0], [0, 0]⟩] :=
    gen_loop_succ_ok cfgC5_step1 (gen_loop_succ_ok cfgC5_step2 rfl)
  rw [generate_eq_of_gen_loop hg]
  rfl

lemma trajC5_e2e_real : end2end_real trajC5 = [2, 0] := by
  unfold end2end_real first_last_diff trajC5
  norm_num
  rw [show (4 : ℝ) = 2 ^ 2 by norm_num, Real.sqrt_sq (by norm_num : (0:ℝ) ≤ 2)]

lemma trajC5_e2e : end2end trajC5 = Real.sqrt 2 := by
  unfold end2end mean first_last_diff trajC5
  norm_num

/-- Claim C5: `end2end_real` is the per-walk Euclidean distance between row 0
and the last row, while `end2end` is the single scalar root of the summed
per-axis mean squared displacement; the two aggregations genuinely differ:
for the generated two-walk population `trajC5` the scalar is √2 while the
mean of the per-walk distances is 1. -/
theorem C5_aggregations :
    (∀ (t : Traj) (w : Nat),
      w < (t.x.headD []).length → w < (t.x.getLastD []).length →
      w < (t.y.headD []).length → w < (t.y.getLastD []).length →
      w < (t.z.headD []).length → w < (t.z.getLastD []).length →
      (end2end_real t).getD w 0 =
        euclidean_dist3
          ((t.x.headD []).getD w 0, (t.y.headD []).getD w 0,
            (t.z.headD []).getD w 0)
          ((t.x.getLastD []).getD w 0, (t.y.getLastD []).getD w 0,
            (t.z.getLastD []).getD w 0)) ∧
    (generate_walk_coordinates cfgC5 oraC5 oraC5 = .ok trajC5 ∧
      end2end trajC5 ≠ mean (end2end_real trajC5)) := by
  constructor
  · intro t w h1 h2 h3 h4 h5 h6
    unfold end2end_real euclidean_dist3 first_last_diff
    have lx : w < (List.zipWith (fun a b => a - b) (t.x.headD [])
        (t.x.getLastD [])).length := by rw [List.length_zipWith]; omega
    have ly : w < (List.zipWith (fun a b => a - b) (t.y.headD [])
        (t.y.getLastD [])).length := by rw [List.length_zipWith]; omega
    have lz : w < (List.zipWith (fun a b => a - b) (t.z.headD [])
        (t.z.getLastD [])).length := by rw [List.length_zipWith]; omega
    have lxy : w < (List.zipWith (· + ·)
        ((List.zipWith (fun a b => a - b) (t.x.headD []) (t.x.getLastD [])).map
          fun a => a ^ 2)
        ((List.zipWith (fun a b => a - b) (t.y.headD []) (t.y.getLastD [])).map
          fun a => a ^ 2)).length := by
      rw [List.length_zipWith, List.length_map, List.length_map]; omega
    have lxyz : w < (List.zipWith (· + ·)
        (List.zipWith (· + ·)
          ((List.zipWith (fun a b => a - b) (t.x.headD []) (t.x.getLastD [])).map
            fun a => a ^ 2)
          ((List.zipWith (fun a b => a - b) (t.y.headD []) (t.y.getLastD [])).map
            fun a => a ^ 2))
        ((List.zipWith (fun a b => a - b) (t.z.headD []) (t.z.getLastD [])).map
          fun a => a ^ 2)).length := by
      rw [List.length_zipWith, List.length_zipWith, List.length_map,
        List.length_map, List.length_map]; omega
    rw [getD_map lxyz 0 0,
      getD_zipWith lxy (by rw [List.length_map]; exact lz) 0 0 0,
      getD_zipWith (by rw [List.length_map]; exact lx)
        (by rw [List.length_map]; exact ly) 0 0 0,
      getD_map lx 0 0, getD_map ly 0 0, getD_map lz 0 0,
      getD_zipWith h1 h2 0 0 0, getD_zipWith h3 h4 0 0 0,
      getD_zipWith h5 h6 0 0 0]
  · refine ⟨cfgC5_generate, ?_⟩
    rw [trajC5_e2e, trajC5_e2e_real]
    have hm : mean [(2 : ℝ), 0] = 1 := by norm_num [mean]
    rw [hm]
    have : (1 : ℝ) < Real.sqrt 2 := by
      rw [show (1 : ℝ) = Real.sqrt 1 from (Real.sqrt_one).symm]
      exact Real.sqrt_lt_sqrt (by norm_num) (by norm_num)
    exact ne_of_gt this

/-- Witness for claim C5's quantified part at the concrete trajectory
`trajC5`, walk 0. -/
theorem C5_witness :
    (end2end_real trajC5).getD 0 0 =
      euclidean_dist3
        ((trajC5.x.headD []).getD 0 0, (trajC5.y.headD []).getD 0 0,
          (trajC5.z.headD []).getD 0 0)
        ((trajC5.x.getLastD []).getD 0 0, (trajC5.y.getLastD []).getD 0 0,
          (trajC5.z.getLastD []).getD 0 0) :=
  C5_aggregations.1 trajC5 0 (by norm_num [trajC5]) (by norm_num [trajC5])
    (by norm_num [trajC5]) (by norm_num [trajC5]) (by norm_num [trajC5])
    (by norm_num [trajC5])

end ClaimC5

section ClaimC7

/-- In dimension 1 every sampled y-displacement is zero: the xy-angle is 0 or
π, whose sine vanishes. -/
lemma calc_sy_zero_dim1 (cfg : Config) (oxy oxz : Nat → ℝ)
    (hdim : cfg.dimensions = 1) (hsup : ∀ i, oxy i = 0 ∨ oxy i = Real.pi) :
    ∀ (m c : Nat) (st : Steps3), calc_next_steps cfg m oxy oxz c = .ok st →
      ∀ a ∈ st.sy, a = 0 := by
  intro m c st hok a ha
  rw [calc_next_steps_ok _ _ _ _ _ (Or.inl hdim)] at hok
  cases hok
  simp only [List.mem_map] at ha
  obtain ⟨i, hi, rfl⟩ := ha
  rcases hsup (c + i) with h | h <;> simp [h, Real.sin_pi]

/-- In dimensions 1 and 2 every sampled z-displacement is zero: the xz-angle
is the constant π/2, whose cosine vanishes. -/
lemma calc_sz_zero_dim12 (cfg : Config) (oxy oxz : Nat → ℝ)
    (hdim : cfg.dimensions = 1 ∨ cfg.dimensions = 2) :
    ∀ (m c : Nat) (st : Steps3), calc_next_steps cfg m oxy oxz c = .ok st →
      ∀ a ∈ st.sz, a = 0 := by
  intro m c st hok a ha
  rw [calc_next_steps_ok _ _ _ _ _ (by tauto)] at hok
  cases hok
  simp only [List.mem_map] at ha
  obtain ⟨i, hi, rfl⟩ := ha
  simp [xz_angle, if_pos hdim, Real.cos_pi_div_two]

/-- Claim C7: with `dimensions = 1` (and the xy-angle sampler drawing from
its support `{0, π}`), every y and z coordinate equals its start value at
every step; with `dimensions = 2`, every z coordinate equals its start
value. -/
theorem C7_dimension_confinement (cfg : Config) (oxy oxz : Nat → ℝ) (t : Traj)
    (hsx : (cfg.start_x.toRow cfg.number_of_walks).length = cfg.number_of_walks)
    (hsy : (cfg.start_y.toRow cfg.number_of_walks).length = cfg.number_of_walks)
    (hsz : (cfg.start_z.toRow cfg.number_of_walks).length = cfg.number_of_walks)
    (hok : generate_walk_coordinates cfg oxy oxz = .ok t)
    (s w : Nat) (hs : s ≤ cfg.step_number) (hw : w < cfg.number_of_walks) :
    (cfg.dimensions = 1 → (∀ i, xy_support cfg (oxy i)) →
      coord t.y s w = coord t.y 0 w ∧ coord t.z s w = coord t.z 0 w) ∧
    (cfg.dimensions = 2 → coord t.z s w = coord t.z 0 w) := by
  obtain ⟨rows, hg, rfl⟩ := generate_ok_inv hok
  obtain ⟨hrlen, hmem⟩ := gen_loop_ok_inv cfg oxy oxz cfg.step_number
    (start_rows cfg) 0 rows ⟨hsx, hsy, hsz⟩ hg
  constructor
  · intro hdim hsup
    have hsup' : ∀ i, oxy i = 0 ∨ oxy i = Real.pi := by
      intro i
      have := hsup i
      unfold xy_support at this
      rwa [if_pos hdim] at this
    have hzy := calc_sy_zero_dim1 cfg oxy oxz hdim hsup'
    have hzz := calc_sz_zero_dim12 cfg oxy oxz (Or.inl hdim)
    by_cases hs0 : s = 0
    · subst hs0; exact ⟨rfl, rfl⟩
    · obtain ⟨r, hrmem, hxr, hyr, hzr⟩ := generate_row_mem hg hrlen (by omega) hs
      obtain ⟨-, -, hyp, hzp⟩ := hmem r hrmem
      constructor
      · unfold coord
        dsimp only []
        rw [hyr, hyp hzy, getD_map (by simp) [] ⟨[], [], []⟩,
          List.getD_cons_zero]
      · unfold coord
        dsimp only []
        rw [hzr, hzp hzz, getD_map (by simp) [] ⟨[], [], []⟩,
          List.getD_cons_zero]
  · intro hdim
    have hzz := calc_sz_zero_dim12 cfg oxy oxz (Or.inr hdim)
    by_cases hs0 : s = 0
    · subst hs0; rfl
    · obtain ⟨r, hrmem, hxr, hyr, hzr⟩ := generate_row_mem hg hrlen (by omega) hs
      obtain ⟨-, -, -, hzp⟩ := hmem r hrmem
      unfold coord
      dsimp only []
      rw [hzr, hzp hzz, getD_map (by simp) [] ⟨[], [], []⟩,
        List.getD_cons_zero]

/-- Concrete dimension-1 configuration for the C7 and C3 witnesses: one walk,
one unit step from (0, 5, 7), no limits, oracle constantly 0. -/
noncomputable def cfgC7 : Config where
  step_number := 1
  number_of_walks := 1
  start_x := .scalar 0
  start_y := .scalar 5
  start_z := .scalar 7
  dimensions := 1
  step_length := 1
  angles_xy := none
  angles_xz := none
  angles_xy_p := none
  angles_xz_p := none
  x_limits := none
  y_limits := none
  z_limits := none
  constraint_counter := 1000
  wall_mode := "exclude"

/-- The constant-zero oracle used by several concrete witnesses. -/
noncomputable def oraZero : Nat → ℝ := fun _ => 0

lemma cfgC7_calc : calc_next_steps cfgC7 1 oraZero oraZero 0 =
    .ok ⟨[1], [0], [0]⟩ := by
  rw [calc_next_steps_ok _ _ _ _ _ (Or.inl rfl)]
  norm_num [List.range_succ, xz_angle, cfgC7, oraZero]

lemma cfgC7_step : do_step cfgC7 oraZero oraZero (start_rows cfgC7) 0 =
    .ok (⟨[1], [5], [7]⟩, 1) := by
  unfold do_step
  rw [show cfgC7.number_of_walks = 1 from rfl, cfgC7_calc]
  dsimp only []
  rw [show start_rows cfgC7 = ⟨[0], [5], [7]⟩ from rfl]
  dsimp only [List.zipWith_cons_cons, List.zipWith_nil_right]
  norm_num
  have hwm : cfgC7.wall_mode = "exclude" := rfl
  rw [hwm, if_pos rfl, check_constraints_no_limits _ _ _ rfl rfl rfl,
    rejection_loop_exit _ _ _ _ _ _ _ _ _ (by decide)]

/-- The trajectory generated by `cfgC7`: x moves 0 to 1, y stays 5, z stays 7. -/
noncomputable def trajC7 : Traj := ⟨[[0], [1]], [[5], [5]], [[7], [7]]⟩

lemma cfgC7_generate :
    generate_walk_coordinates cfgC7 oraZero oraZero = .ok trajC7 := by
  have hg : gen_loop cfgC7 oraZero oraZero cfgC7.step_number
      (start_rows cfgC7) 0 = .ok [⟨[1], [5], [7]⟩] :=
    gen_loop_succ_ok cfgC7_step rfl
  rw [generate_eq_of_gen_loop hg]
  rfl

/-- Witness for claim C7 at the concrete input `cfgC7`, step 1, walk 0. -/
theorem C7_witness :
    (cfgC7.dimensions = 1 → (∀ i, xy_support cfgC7 (oraZero i)) →
      coord trajC7.y 1 0 = coord trajC7.y 0 0 ∧
      coord trajC7.z 1 0 = coord trajC7.z 0 0) ∧
    (cfgC7.dimensions = 2 → coord trajC7.z 1 0 = coord trajC7.z 0 0) :=
  C7_dimension_confinement cfgC7 oraZero oraZero trajC7 rfl rfl rfl
    cfgC7_generate 1 0 (by decide) (by decide)

end ClaimC7

section ClaimC3

lemma any_replicate_false (n : Nat) :
    (List.replicate n false).any id = false := by
  induction n with
  | zero => rfl
  | succ n ih => simpa [List.replicate_succ] using ih

/-- With no limits configured the constraint check never flags a walk, so one
step is exactly previous row plus the sampled displacements. -/
lemma do_step_no_limits {cfg : Config} {oxy oxz : Nat → ℝ} {prev : Rows}
    {cur : Nat} {r : Rows} {cur' : Nat}
    (hx : cfg.x_limits = none) (hy : cfg.y_limits = none)
    (hz : cfg.z_limits = none)
    (hok : do_step cfg oxy oxz prev cur = .ok (r, cur')) :
    ∃ st, calc_next_steps cfg cfg.number_of_walks oxy oxz cur = .ok st ∧
      r = ⟨List.zipWith (· + ·) prev.x st.sx, List.zipWith (· + ·) prev.y st.sy,
           List.zipWith (· + ·) prev.z st.sz⟩ := by
  unfold do_step at hok
  cases hc : calc_next_steps cfg cfg.number_of_walks oxy oxz cur with
  | error e => rw [hc] at hok; cases hok
  | ok st =>
    rw [hc] at hok
    dsimp only [] at hok
    rw [check_constraints_no_limits _ _ _ hx hy hz] at hok
    split at hok
    · rw [rejection_loop_exit _ _ _ _ _ _ _ _ _ (any_replicate_false _)] at hok
      cases hok
      exact ⟨st, rfl, rfl⟩
    · split at hok
      · cases hok
        exact ⟨st, rfl, rfl⟩
      · cases hok

/-- Chain structure of an unconstrained generation: every row is the previous
row plus one batch of sampled displacements. -/
lemma gen_loop_no_limits_chain {cfg : Config} {oxy oxz : Nat → ℝ}
    (hx : cfg.x_limits = none) (hy : cfg.y_limits = none)
    (hz : cfg.z_limits = none) :
    ∀ (k : Nat) (prev : Rows) (cur : Nat) (rows : List Rows),
      gen_loop cfg oxy oxz k prev cur = .ok rows →
      ∀ i, i < k →
        ∃ c st, calc_next_steps cfg cfg.number_of_walks oxy oxz c = .ok st ∧
          (prev :: rows).getD (i + 1) ⟨[], [], []⟩ =
            ⟨List.zipWith (· + ·) ((prev :: rows).getD i ⟨[], [], []⟩).x st.sx,
             List.zipWith (· + ·) ((prev :: rows).getD i ⟨[], [], []⟩).y st.sy,
             List.zipWith (· + ·) ((prev :: rows).getD i ⟨[], [], []⟩).z st.sz⟩ := by
  intro k
  induction k with
  | zero => intro prev cur rows hok i hi; omega
  | succ k ih =>
    intro prev cur rows hok i hi
    unfold gen_loop at hok
    cases hd : do_step cfg oxy oxz prev cur with
    | error e => rw [hd] at hok; cases hok
    | ok rc =>
      obtain ⟨r1, cur1⟩ := rc
      rw [hd] at hok
      dsimp only [] at hok
      cases hg : gen_loop cfg oxy oxz k r1 cur1 with
      | error e => rw [hg] at hok; cases hok
      | ok rest =>
        rw [hg] at hok
        cases hok
        cases i with
        | zero =>
          obtain ⟨st, hc, hr⟩ := do_step_no_limits hx hy hz hd
          exact ⟨cur, st, hc, by simp [hr]⟩
        | succ i =>
          have := ih r1 cur1 rest hg i (by omega)
          simpa using this

/-- Claim C3: in the unconstrained case (no axis limits), the Euclidean
distance between consecutive rows equals `step_length` for every step and
walk.  Successful generation of a step already forces `dimensions ∈ {1,2,3}`,
so the claim holds for each of the valid dimension values. -/
theorem C3_step_length (cfg : Config) (oxy oxz : Nat → ℝ) (t : Traj)
    (hx : cfg.x_limits = none) (hy : cfg.y_limits = none)
    (hz : cfg.z_limits = none) (hL : 0 ≤ cfg.step_length)
    (hsx : (cfg.start_x.toRow cfg.number_of_walks).length = cfg.number_of_walks)
    (hsy : (cfg.start_y.toRow cfg.number_of_walks).length = cfg.number_of_walks)
    (hsz : (cfg.start_z.toRow cfg.number_of_walks).length = cfg.number_of_walks)
    (hok : generate_walk_coordinates cfg oxy oxz = .ok t)
    (s w : Nat) (hs : s < cfg.step_number) (hw : w < cfg.number_of_walks) :
    Real.sqrt ((coord t.x (s + 1) w - coord t.x s w) ^ 2 +
      (coord t.y (s + 1) w - coord t.y s w) ^ 2 +
      (coord t.z (s + 1) w - coord t.z s w) ^ 2) = cfg.step_length := by
  obtain ⟨rows, hg, rfl⟩ := generate_ok_inv hok
  obtain ⟨hrlen, hmem⟩ := gen_loop_ok_inv cfg oxy oxz cfg.step_number
    (start_rows cfg) 0 rows ⟨hsx, hsy, hsz⟩ hg
  obtain ⟨c, st, hcalc, hrel⟩ :=
    gen_loop_no_limits_chain hx hy hz cfg.step_number (start_rows cfg) 0 rows
      hg s hs
  have hdim := calc_next_steps_dims hcalc
  obtain ⟨hstx, hsty, hstz⟩ := calc_next_steps_len hcalc
  -- the row at index s has full width
  have hRlen : RowsLen ((start_rows cfg :: rows).getD s ⟨[], [], []⟩)
      cfg.number_of_walks := by
    cases s with
    | zero => exact ⟨hsx, hsy, hsz⟩
    | succ s' =>
      rw [List.getD_cons_succ]
      have hsm : s' < rows.length := by omega
      rw [List.getD_eq_getElem _ _ hsm]
      exact (hmem _ (List.getElem_mem hsm)).1
  have hcons : s + 1 < (start_rows cfg :: rows).length := by
    simp only [List.length_cons, hrlen]; omega
  have hconss : s < (start_rows cfg :: rows).length := by
    simp only [List.length_cons, hrlen]; omega
  -- express the two consecutive coordinates on each axis
  have hcx : coord ((start_rows cfg :: rows).map Rows.x) (s + 1) w -
      coord ((start_rows cfg :: rows).map Rows.x) s w = st.sx.getD w 0 := by
    unfold coord
    rw [getD_map hcons [] ⟨[], [], []⟩, getD_map hconss [] ⟨[], [], []⟩, hrel]
    dsimp only []
    rw [getD_zipWith (by rw [hRlen.1]; exact hw) (by rw [hstx]; exact hw) 0 0 0]
    ring
  have hcy : coord ((start_rows cfg :: rows).map Rows.y) (s + 1) w -
      coord ((start_rows cfg :: rows).map Rows.y) s w = st.sy.getD w 0 := by
    unfold coord
    rw [getD_map hcons [] ⟨[], [], []⟩, getD_map hconss [] ⟨[], [], []⟩, hrel]
    dsimp only []
    rw [getD_zipWith (by rw [hRlen.2.1]; exact hw) (by rw [hsty]; exact hw) 0 0 0]
    ring
  have hcz : coord ((start_rows cfg :: rows).map Rows.z) (s + 1) w -
      coord ((start_rows cfg :: rows).map Rows.z) s w = st.sz.getD w 0 := by
    unfold coord
    rw [getD_map hcons [] ⟨[], [], []⟩, getD_map hconss [] ⟨[], [], []⟩, hrel]
    dsimp only []
    rw [getD_zipWith (by rw [hRlen.2.2]; exact hw) (by rw [hstz]; exact hw) 0 0 0]
    ring
  rw [hcx, hcy, hcz]
  -- the sampled displacement has norm step_length
  rw [calc_next_steps_ok _ _ _ _ _ hdim] at hcalc
  cases hcalc
  rw [getD_map (by simpa using hw) 0 0, getD_map (by simpa using hw) 0 0,
    getD_map (by simpa using hw) 0 0, getD_range hw 0]
  have key : (Real.cos (oxy (c + w)) * Real.sin (xz_angle cfg oxz (c + w)) *
        cfg.step_length) ^ 2 +
      (Real.sin (oxy (c + w)) * Real.sin (xz_angle cfg oxz (c + w)) *
        cfg.step_length) ^ 2 +
      (Real.cos (xz_angle cfg oxz (c + w)) * cfg.step_length) ^ 2 =
      cfg.step_length ^ 2 := by
    have h1 := Real.sin_sq_add_cos_sq (oxy (c + w))
    have h2 := Real.sin_sq_add_cos_sq (xz_angle cfg oxz (c + w))
    have expand : (Real.cos (oxy (c + w)) * Real.sin (xz_angle cfg oxz (c + w)) *
          cfg.step_length) ^ 2 +
        (Real.sin (oxy (c + w)) * Real.sin (xz_angle cfg oxz (c + w)) *
          cfg.step_length) ^ 2 +
        (Real.cos (xz_angle cfg oxz (c + w)) * cfg.step_length) ^ 2 =
        ((Real.sin (oxy (c + w)) ^ 2 + Real.cos (oxy (c + w)) ^ 2) *
            Real.sin (xz_angle cfg oxz (c + w)) ^ 2 +
          Real.cos (xz_angle cfg oxz (c + w)) ^ 2) * cfg.step_length ^ 2 := by
      ring
    rw [expand, h1, one_mul, h2, one_mul]
  rw [key, Real.sqrt_sq hL]

/-- Witness for claim C3 at the concrete input `cfgC7` (one unit step in
dimension 1): the distance between row 0 and row 1 of walk 0 equals 1. -/
theorem C3_witness :
    Real.sqrt ((coord trajC7.x (0 + 1) 0 - coord trajC7.x 0 0) ^ 2 +
      (coord trajC7.y (0 + 1) 0 - coord trajC7.y 0 0) ^ 2 +
      (coord trajC7.z (0 + 1) 0 - coord trajC7.z 0 0) ^ 2) =
      cfgC7.step_length :=
  C3_step_length cfgC7 oraZero oraZero trajC7 rfl rfl rfl (by norm_num [cfgC7])
    rfl rfl rfl cfgC7_generate 0 0 (by decide) (by decide)

end ClaimC3

section ClaimC2

/-- One-walk closed form of `calc_next_steps` in dimension 1. -/
lemma calc_dim1_single (cfg : Config) (oxy oxz : Nat → ℝ) (cur : Nat)
    (hdim : cfg.dimensions = 1) :
    calc_next_steps cfg 1 oxy oxz cur =
      .ok ⟨[Real.cos (oxy cur) * cfg.step_length],
           [Real.sin (oxy cur) * cfg.step_length], [0]⟩ := by
  rw [calc_next_steps_ok _ _ _ _ _ (Or.inl hdim)]
  norm_num [List.range_succ, xz_angle, hdim]

/-- One-walk form of `check_constraints` with only the x-axis constrained. -/
lemma check_single_x (cfg : Config) (lo hi : ℝ)
    (hxl : cfg.x_limits = some (lo, hi)) (hyl : cfg.y_limits = none)
    (hzl : cfg.z_limits = none) (v : ℝ) (cy cz : List ℝ) :
    check_constraints cfg [v] cy cz =
      [decide (v > hi) || decide (v < lo)] := by
  rw [check_constraints_eq, hxl, hyl, hzl]
  unfold acc_axis
  simp

/-- If every available move violates the x-limits, the rejection loop counts
up the single walk's retries and raises the exhaustion error before its fuel
runs out. -/
lemma rejection_loop_exhaust (cfg : Config) (oxy oxz : Nat → ℝ)
    (lo hi s0 : ℝ) (hdim : cfg.dimensions = 1)
    (hxl : cfg.x_limits = some (lo, hi)) (hyl : cfg.y_limits = none)
    (hzl : cfg.z_limits = none)
    (hsup : ∀ i, oxy i = 0 ∨ oxy i = Real.pi)
    (hhi : hi < s0 + cfg.step_length) (hlo : s0 - cfg.step_length < lo)
    (prev : Rows) (hprev : prev.x = [s0]) :
    ∀ (fuel k : Nat) (cx : ℝ) (ry rz : List ℝ) (cur : Nat),
      cfg.constraint_counter + 1 ≤ fuel + k → k < cfg.constraint_counter →
      rejection_loop cfg oxy oxz prev fuel [true] ⟨[cx], ry, rz⟩ [k] cur =
        .error .constraintExhausted := by
  intro fuel
  induction fuel with
  | zero =>
    intro k cx ry rz cur h1 h2
    exfalso; omega
  | succ fuel ih =>
    intro k cx ry rz cur h1 h2
    rw [rejection_loop_succ _ _ _ _ _ _ _ _ _ _ (by decide)
      (calc_dim1_single cfg oxy oxz cur hdim)]
    unfold rejection_step
    dsimp only []
    rw [hprev]
    rw [show masked_update [true] [s0] [cx]
        [Real.cos (oxy cur) * cfg.step_length] =
        [s0 + Real.cos (oxy cur) * cfg.step_length] from rfl]
    rw [check_single_x cfg lo hi hxl hyl hzl _ _ _]
    have hviol : (decide (s0 + Real.cos (oxy cur) * cfg.step_length > hi) ||
        decide (s0 + Real.cos (oxy cur) * cfg.step_length < lo)) = true := by
      simp only [Bool.or_eq_true, decide_eq_true_eq]
      rcases hsup cur with h | h
      · left; rw [h, Real.cos_zero, one_mul]; exact hhi
      · right; rw [h, Real.cos_pi]; linarith
    rw [hviol]
    rw [show List.zipWith (fun b c => if b then c + 1 else c) [true] [k] =
      [k + 1] from rfl]
    rw [show List.zipWith
        (fun b c => b && decide (cfg.constraint_counter ≤ c)) [true] [k + 1] =
      [decide (cfg.constraint_counter ≤ k + 1)] from rfl]
    split
    · rfl
    · rename_i hguard
      simp only [List.any_cons, List.any_nil, Bool.or_false, id_eq,
        decide_eq_true_eq] at hguard
      exact ih (k + 1) (s0 + Real.cos (oxy cur) * cfg.step_length) _ _ _
        (by omega) (by omega)

/-- Claim C2: under `wall_mode = 'exclude'`, a walk that cannot satisfy the
x-limits (step length larger than the distance to either wall) makes the
rejection loop count its per-walk retries up to `constraint_counter` and then
fail the whole generation with the `constraintExhausted` error; the `Except`
result carries no trajectory, so the caller receives no partial data. -/
theorem C2_constraint_exhaustion (cfg : Config) (oxy oxz : Nat → ℝ)
    (lo hi s0 : ℝ) (hdim : cfg.dimensions = 1)
    (hwalks : cfg.number_of_walks = 1) (hmode : cfg.wall_mode = "exclude")
    (hsup : ∀ i, xy_support cfg (oxy i))
    (hxl : cfg.x_limits = some (lo, hi)) (hyl : cfg.y_limits = none)
    (hzl : cfg.z_limits = none) (hstart : cfg.start_x = .scalar s0)
    (hhi : hi < s0 + cfg.step_length) (hlo : s0 - cfg.step_length < lo)
    (hcc : 1 ≤ cfg.constraint_counter) (hsteps : 1 ≤ cfg.step_number) :
    generate_walk_coordinates cfg oxy oxz = .error .constraintExhausted := by
  obtain ⟨k, hk⟩ : ∃ k, cfg.step_number = k + 1 :=
    ⟨cfg.step_number - 1, by omega⟩
  have hsup' : ∀ i, oxy i = 0 ∨ oxy i = Real.pi := by
    intro i
    have := hsup i
    unfold xy_support at this
    rwa [if_pos hdim] at this
  have hprevx : (start_rows cfg).x = [s0] := by
    unfold start_rows
    rw [hstart, hwalks]
    rfl
  have hd : do_step cfg oxy oxz (start_rows cfg) 0 =
      .error .constraintExhausted := by
    unfold do_step
    rw [hwalks, calc_dim1_single cfg oxy oxz 0 hdim]
    dsimp only []
    rw [hprevx]
    rw [show List.zipWith (· + ·) [s0] [Real.cos (oxy 0) * cfg.step_length] =
      [s0 + Real.cos (oxy 0) * cfg.step_length] from rfl]
    rw [check_single_x cfg lo hi hxl hyl hzl _ _ _]
    have hviol : (decide (s0 + Real.cos (oxy 0) * cfg.step_length > hi) ||
        decide (s0 + Real.cos (oxy 0) * cfg.step_length < lo)) = true := by
      simp only [Bool.or_eq_true, decide_eq_true_eq]
      rcases hsup' 0 with h | h
      · left; rw [h, Real.cos_zero, one_mul]; exact hhi
      · right; rw [h, Real.cos_pi]; linarith
    rw [hviol, hmode, if_pos rfl]
    exact rejection_loop_exhaust cfg oxy oxz lo hi s0 hdim hxl hyl hzl hsup'
      hhi hlo (start_rows cfg) hprevx (cfg.constraint_counter + 1) 0 _ _ _ _
      (by omega) (by omega)
  exact generate_err_of_gen_loop (by rw [hk]; exact gen_loop_succ_err hd)

/-- Concrete exhaustion configuration: interval [-1/2, 1/2], start 0, unit
steps, one retry allowed. -/
noncomputable def cfgC2 : Config where
  step_number := 1
  number_of_walks := 1
  start_x := .scalar 0
  start_y := .scalar 0
  start_z := .scalar 0
  dimensions := 1
  step_length := 1
  angles_xy := none
  angles_xz := none
  angles_xy_p := none
  angles_xz_p := none
  x_limits := some (-1 / 2, 1 / 2)
  y_limits := none
  z_limits := none
  constraint_counter := 1
  wall_mode := "exclude"

/-- Witness for claim C2 at the concrete input `cfgC2`. -/
theorem C2_witness :
    generate_walk_coordinates cfgC2 oraZero oraZero =
      .error .constraintExhausted :=
  C2_constraint_exhaustion cfgC2 oraZero oraZero (-1 / 2) (1 / 2) 0 rfl rfl rfl
    (fun i => by
      unfold xy_support oraZero
      rw [if_pos (show cfgC2.dimensions = 1 from rfl)]
      exact Or.inl rfl)
    rfl rfl rfl rfl (by norm_num [cfgC2]) (by norm_num [cfgC2]) (by decide)
    (by decide)

end ClaimC2

section ClaimC8

/-- Claim C8: the rejection-retry loop of one step only modifies coordinates
of walks flagged as violating.  Formally: if a walk is not flagged when the
loop is entered (the flag vector being the constraint check of the current
candidate row, as at the call site), then on success its coordinates in the
resulting row are exactly its coordinates in the candidate row.  Each single
iteration writes through `masked_update`, which by `masked_update_getD_false`
leaves unflagged positions untouched; the loop state contains only the
current step's row, so previously completed rows cannot be modified at all. -/
theorem C8_rejection_frame (cfg : Config) (oxy oxz : Nat → ℝ) (prev : Rows)
    (fuel : Nat) (violated : List Bool) (rows : Rows) (counter : List Nat)
    (cur : Nat) (r : Rows) (cur' : Nat)
    (hpl : RowsLen prev cfg.number_of_walks)
    (hrl : RowsLen rows cfg.number_of_walks)
    (hvl : violated.length = cfg.number_of_walks)
    (hinv : violated = check_constraints cfg rows.x rows.y rows.z)
    (hok : rejection_loop cfg oxy oxz prev fuel violated rows counter cur =
      .ok (r, cur'))
    (w : Nat) (hw : w < cfg.number_of_walks)
    (hflag : violated.getD w true = false) :
    r.x.getD w 0 = rows.x.getD w 0 ∧ r.y.getD w 0 = rows.y.getD w 0 ∧
      r.z.getD w 0 = rows.z.getD w 0 := by
  induction fuel generalizing violated rows counter cur with
  | zero =>
    by_cases hany : violated.any id = true
    · rw [rejection_loop_fuel_zero cfg oxy oxz prev violated rows counter cur
        hany] at hok
      cases hok
    · have hany' : violated.any id = false := by
        revert hany; cases violated.any id <;> simp
      rw [rejection_loop_exit cfg oxy oxz prev 0 violated rows counter cur
        hany'] at hok
      cases hok
      exact ⟨rfl, rfl, rfl⟩
  | succ fuel ih =>
    by_cases hany : violated.any id = true
    · cases hc : calc_next_steps cfg (violated.count true) oxy oxz cur with
      | error e =>
        rw [rejection_loop_succ_err cfg oxy oxz prev fuel violated rows counter
          cur e hany hc] at hok
        cases hok
      | ok st =>
        rw [rejection_loop_succ cfg oxy oxz prev fuel violated rows counter cur
          st hany hc] at hok
        unfold rejection_step at hok
        dsimp only [] at hok
        split at hok
        · cases hok
        · have hnx : (masked_update violated prev.x rows.x st.sx).length =
              cfg.number_of_walks := by
            rw [masked_update_len violated prev.x rows.x st.sx
              (by rw [hpl.1, hvl]) (by rw [hrl.1, hvl]), hvl]
          have hny : (masked_update violated prev.y rows.y st.sy).length =
              cfg.number_of_walks := by
            rw [masked_update_len violated prev.y rows.y st.sy
              (by rw [hpl.2.1, hvl]) (by rw [hrl.2.1, hvl]), hvl]
          have hnz : (masked_update violated prev.z rows.z st.sz).length =
              cfg.number_of_walks := by
            rw [masked_update_len violated prev.z rows.z st.sz
              (by rw [hpl.2.2, hvl]) (by rw [hrl.2.2, hvl]), hvl]
          have hvl' : (check_constraints cfg
              (masked_update violated prev.x rows.x st.sx)
              (masked_update violated prev.y rows.y st.sy)
              (masked_update violated prev.z rows.z st.sz)).length =
              cfg.number_of_walks := by
            rw [check_constraints_len (by rw [hny, hnx]) (by rw [hnz, hnx]),
              hnx]
          have hfx : (masked_update violated prev.x rows.x st.sx).getD w 0 =
              rows.x.getD w 0 :=
            masked_update_getD_false violated prev.x rows.x st.sx w
              (by rw [hpl.1, hvl]) (by rw [hrl.1, hvl]) hflag
          have hfy : (masked_update violated prev.y rows.y st.sy).getD w 0 =
              rows.y.getD w 0 :=
            masked_update_getD_false violated prev.y rows.y st.sy w
              (by rw [hpl.2.1, hvl]) (by rw [hrl.2.1, hvl]) hflag
          have hfz : (masked_update violated prev.z rows.z st.sz).getD w 0 =
              rows.z.getD w 0 :=
            masked_update_getD_false violated prev.z rows.z st.sz w
              (by rw [hpl.2.2, hvl]) (by rw [hrl.2.2, hvl]) hflag
          have hflag' : (check_constraints cfg
              (masked_update violated prev.x rows.x st.sx)
              (masked_update violated prev.y rows.y st.sy)
              (masked_update violated prev.z rows.z st.sz)).getD w true =
              false := by
            rw [getD_in_bounds (by rw [hvl']; exact hw) true false,
              check_constraints_getD (by rw [hnx]; exact hw)
                (by rw [hny, hnx]) (by rw [hnz, hnx]),
              hfx, hfy, hfz,
              ← check_constraints_getD (by rw [hrl.1]; exact hw)
                (by rw [hrl.2.1, hrl.1]) (by rw [hrl.2.2, hrl.1]),
              ← hinv, ← getD_in_bounds (by rw [hvl]; exact hw) true false]
            exact hflag
          obtain ⟨gx, gy, gz⟩ := ih _ ⟨_, _, _⟩ _ _ ⟨hnx, hny, hnz⟩ hvl' rfl
            hok hflag'
          exact ⟨gx.trans hfx, gy.trans hfy, gz.trans hfz⟩
    · have hany' : violated.any id = false := by
        revert hany; cases violated.any id <;> simp
      rw [rejection_loop_exit cfg oxy oxz prev (fuel + 1) violated rows counter
        cur hany'] at hok
      cases hok
      exact ⟨rfl, rfl, rfl⟩

/-- Witness for claim C8: a loop entered with no walk flagged returns the
candidate row unchanged. -/
theorem C8_witness :
    (⟨[0], [0], [0]⟩ : Rows).x.getD 0 0 =
        (⟨[0], [0], [0]⟩ : Rows).x.getD 0 0 ∧
      (⟨[0], [0], [0]⟩ : Rows).y.getD 0 0 =
        (⟨[0], [0], [0]⟩ : Rows).y.getD 0 0 ∧
      (⟨[0], [0], [0]⟩ : Rows).z.getD 0 0 =
        (⟨[0], [0], [0]⟩ : Rows).z.getD 0 0 :=
  C8_rejection_frame cfgC7 oraZero oraZero ⟨[0], [0], [0]⟩ 1 [false]
    ⟨[0], [0], [0]⟩ [0] 0 ⟨[0], [0], [0]⟩ 0 ⟨rfl, rfl, rfl⟩ ⟨rfl, rfl, rfl⟩
    rfl rfl (rejection_loop_exit _ _ _ _ _ _ _ _ _ (by decide)) 0 (by decide)
    (by decide)

end ClaimC8

end RW
